import Mathlib

set_option maxHeartbeats 1000000

namespace CxAttach

/-! # Shallow embedding of the cx-attach spec-synthesis pipeline

This file embeds the core of `src/cx_attach/auto.py`, `src/cx_attach/specs.py`
and the effective-VLAN/interface resolution of `src/cx_attach/topology.py`.
Loosely-typed cluster documents (parsed YAML/JSON) are modelled by `Json`;
Python `dict`s are insertion-ordered association lists, Python iterators used
for IP allocation become explicit allocator state threaded through the
collection pass, and Python exceptions become `Except String`. -/

/-- JSON-like values: the loosely-typed documents (cluster resources and
simplified specs) that the Python code manipulates as nested
`dict` / `list` / `str` / `int` / `bool` / `None` data. -/
inductive Json where
  | null : Json
  | bool (b : Bool) : Json
  | int (n : Int) : Json
  | str (s : String) : Json
  | arr (xs : List Json) : Json
  | obj (kvs : List (String × Json)) : Json
deriving Inhabited

namespace Json

/-- Python truthiness (`bool(x)`): `None`, `False`, `0`, `""`, `[]`, `{}` are
falsy; everything else is truthy. -/
def truthy : Json → Bool
  | .null => false
  | .bool b => b
  | .int n => n != 0
  | .str s => s != ""
  | .arr xs => !xs.isEmpty
  | .obj kvs => !kvs.isEmpty

/-- First value bound to key `k` in an association list (Python dict lookup). -/
def lookupKey : List (String × Json) → String → Option Json
  | [], _ => none
  | (k', v) :: rest, k => if k' = k then some v else lookupKey rest k

/-- Python `d.get(k)`: `None` when the key is missing.  The code only calls
`.get` on values it treats as mappings; a non-mapping receiver (which would
raise `AttributeError` in Python) never occurs on the inputs considered and is
given the missing-key result here. -/
def get (j : Json) (k : String) : Json :=
  match j with
  | .obj kvs => (lookupKey kvs k).getD .null
  | _ => .null

/-- Python `d.get(k, default)`: the default applies only when the key is
missing, not when it is bound to `None`. -/
def getD (j : Json) (k : String) (d : Json) : Json :=
  match j with
  | .obj kvs => (lookupKey kvs k).getD d
  | _ => d

/-- Python `k in d` on a mapping. -/
def hasKey (j : Json) (k : String) : Bool :=
  match j with
  | .obj kvs => (lookupKey kvs k).isSome
  | _ => false

/-- Python `d[k] = v` on a dict: replaces the value in place if the key is
present, otherwise appends a new binding. -/
def dictInsert : List (String × Json) → String → Json → List (String × Json)
  | [], k, v => [(k, v)]
  | (k', v') :: rest, k, v =>
      if k' = k then (k, v) :: rest else (k', v') :: dictInsert rest k v

/-- `d[k] = v` on an object value (non-objects never reach an item
assignment in the embedded code). -/
def objSet (j : Json) (k : String) (v : Json) : Json :=
  match j with
  | .obj kvs => .obj (dictInsert kvs k v)
  | other => other

def isObj : Json → Bool
  | .obj _ => true
  | _ => false

def isArr : Json → Bool
  | .arr _ => true
  | _ => false

def isStr : Json → Bool
  | .str _ => true
  | _ => false

/-- Python `isinstance(v, (str, int))`.  `bool` is a subclass of `int` in
Python, so boolean values pass this test. -/
def isStrOrInt : Json → Bool
  | .str _ => true
  | .int _ => true
  | .bool _ => true
  | _ => false

/-- `type(v).__name__` for the embedded value kinds. -/
def typeName : Json → String
  | .null => "NoneType"
  | .bool _ => "bool"
  | .int _ => "int"
  | .str _ => "str"
  | .arr _ => "list"
  | .obj _ => "dict"

/-- Python `a or b` (value-returning short-circuit disjunction). -/
def pyOr (a b : Json) : Json := if a.truthy then a else b

end Json

mutual

/-- Python `repr` for the embedded values (used by `str()` on non-string
values).  String escaping inside `repr` of containers is simplified to plain
single quotes; no property proved here depends on that rendering. -/
def reprJson : Json → String
  | .null => "None"
  | .bool true => "True"
  | .bool false => "False"
  | .int n => if n < 0 then "-" ++ Nat.repr n.natAbs else Nat.repr n.natAbs
  | .str s => "'" ++ s ++ "'"
  | .arr xs => "[" ++ String.intercalate ", " (reprJsonList xs) ++ "]"
  | .obj kvs => "\x7b" ++ String.intercalate ", " (reprJsonObj kvs) ++ "\x7d"
termination_by j => sizeOf j

def reprJsonList : List Json → List String
  | [] => []
  | x :: xs => reprJson x :: reprJsonList xs
termination_by xs => sizeOf xs

def reprJsonObj : List (String × Json) → List String
  | [] => []
  | (k, v) :: kvs => ("'" ++ k ++ "': " ++ reprJson v) :: reprJsonObj kvs
termination_by kvs => sizeOf kvs

end

/-- Python `str(v)`: identity on strings, `repr` otherwise. -/
def pyStr : Json → String
  | .str s => s
  | other => reprJson other

/-- Truthiness of an optional string field (`if att.ip_address:` on a
`str | None` value): `None` and `""` are falsy. -/
def truthyStrOpt : Option String → Bool
  | none => false
  | some s => s != ""

/-! ## Decimal rendering facts

`f"server{index}"` renders the index with Python `str(int)`, embedded as
`Nat.repr`.  The development below shows `Nat.repr` is injective and produces
digit-only, whitespace-free, non-empty strings, which the round-trip and
renaming proofs rely on. -/

/-- Numeric value of a decimal digit character. -/
def decDigitVal (c : Char) : Nat := c.toNat - '0'.toNat

/-- Value of a big-endian decimal digit string. -/
def decValChars : List Char → Nat
  | [] => 0
  | c :: cs => decDigitVal c * 10 ^ cs.length + decValChars cs

/-! ## Python `str.strip` -/

/-- ASCII whitespace as recognised by Python `str.strip()` (the extra Unicode
whitespace Python also strips never occurs in the inputs considered). -/
def isPySpace (c : Char) : Bool :=
  c = ' ' || c = '\t' || c = '\n' || c = '\r' || c = '\x0b' || c = '\x0c'

/-- Python `s.strip()`: remove leading and trailing whitespace. -/
def pyStrip (s : String) : String :=
  ⟨((s.data.dropWhile isPySpace).reverse.dropWhile isPySpace).reverse⟩

/-- The server names produced by renaming. -/
def serverName (i : Nat) : String := "server" ++ Nat.repr i

/-! ## Python string and tuple ordering

Python compares strings lexicographically by code point and tuples
lexicographically componentwise; `sorted(...)` is a stable sort under that
order.  The executable comparators below implement exactly that, together
with the transitivity/totality/antisymmetry facts the sorting proofs need. -/

def charListLt : List Char → List Char → Bool
  | [], [] => false
  | [], _ :: _ => true
  | _ :: _, [] => false
  | a :: as, b :: bs =>
      if a.toNat < b.toNat then true
      else if b.toNat < a.toNat then false
      else charListLt as bs

/-- Python `a < b` on strings: code-point lexicographic order. -/
def strLt (a b : String) : Bool := charListLt a.data b.data

/-- Python `a <= b` on strings. -/
def strLe (a b : String) : Bool := strLt a b || a == b

def natLt (a b : Nat) : Bool := decide (a < b)

/-- Lexicographic combination: Python tuple comparison `(x, rest) <= (y, rest')`
is `x < y`, or `x == y` and `rest <= rest'`. -/
def pairLe {α β : Type} (ltA : α → α → Bool) (leB : β → β → Bool) (p q : α × β) : Bool :=
  if ltA p.1 q.1 then true
  else if ltA q.1 p.1 then false
  else leB p.2 q.2

/-- Insert `x` into a sorted list, after every element `y` with `le y x`
(so existing elements tied with `x` keep precedence — stability). -/
def insertSorted {α : Type} (le : α → α → Bool) (x : α) : List α → List α
  | [] => [x]
  | y :: ys => if le y x then y :: insertSorted le x ys else x :: y :: ys

/-- Python `sorted(l, key=...)`: a stable sort under `le`.  Implemented as a
stable insertion sort (structurally recursive, so proofs can evaluate it);
stable sorts under one comparison all agree, so this is exactly the list
Python's Timsort produces. -/
def pySorted {α : Type} (le : α → α → Bool) (l : List α) : List α :=
  l.foldl (fun acc x => insertSorted le x acc) []

/-- Generic association-list lookup (first binding wins), used for
Python dicts with non-string keys. -/
def assocLookup {κ α : Type} [DecidableEq κ] : List (κ × α) → κ → Option α
  | [], _ => none
  | (k', v) :: rest, k => if k' = k then some v else assocLookup rest k

/-- Generic `d[k] = v`: replace in place if present, else append. -/
def assocSet {κ α : Type} [DecidableEq κ] : List (κ × α) → κ → α → List (κ × α)
  | [], k, v => [(k, v)]
  | (k', v') :: rest, k, v =>
      if k' = k then (k, v) :: rest else (k', v') :: assocSet rest k v

/-! ## `specs.py`: simplified-spec parsing and validation -/

/-- `SIMNODE_ALLOWED_FIELDS` from `specs.py`. -/
def SIMNODE_ALLOWED_FIELDS : List String :=
  ["component", "containerImage", "dhcp", "imagePullSecret", "license",
   "operatingSystem", "platform", "platformPath", "port", "serialNumberPath",
   "version", "versionMatch", "versionPath"]

/-- `SimNodeSpec` dataclass: simulation node definition from the simplified
spec.  `raw` is the original entry mapping. -/
structure SimNodeSpec where
  name : String
  image : String
  node_type : String
  raw : Json

/-- `SimNodeSpec.ip_address` property. -/
def SimNodeSpec.ip_address (n : SimNodeSpec) : Option String :=
  let value := Json.pyOr (n.raw.get "ipAddress") (n.raw.get "ip")
  if value.isStrOrInt then some (pyStr value) else none

/-- `SimNodeSpec.vlan` property. -/
def SimNodeSpec.vlan (n : SimNodeSpec) : Option String :=
  let value := Json.pyOr (n.raw.get "vlan") (n.raw.get "vlanId")
  if value.isStrOrInt then some (pyStr value) else none

/-- `SimNodeSpec.interface` property: the (unstripped) string when it is a
string with non-empty strip, else `None`. -/
def SimNodeSpec.interface (n : SimNodeSpec) : Option String :=
  match Json.pyOr (n.raw.get "interface") (n.raw.get "simInterface") with
  | .str s => if pyStrip s ≠ "" then some s else none
  | _ => none

/-- `AttachmentSpec` dataclass. -/
structure AttachmentSpec where
  fabric_node : String
  fabric_interface : String
  sim_node : String
  sim_interface : String
  vlan : Option String
deriving DecidableEq

/-- `SimulationSpec` dataclass: `nodes` is the insertion-ordered dict of
simNode entries keyed by their (unstripped) `name` value. -/
structure SimulationSpec where
  nodes : List (String × SimNodeSpec)
  attachments : List AttachmentSpec

/-- `isinstance(v, str) and v.strip()`: the string itself when the test
passes. -/
def strWithContent : Json → Option String
  | .str s => if pyStrip s = "" then none else some s
  | _ => none

/-- `_ensure_list`.  Of the embedded value kinds, Python additionally accepts
non-`list` iterables that are not `str`/`bytes`/`dict`; no such kind exists
here, so everything except `None` and lists is the type error. -/
def ensure_list (value : Json) (key : String) : Except String (List Json) :=
  match value with
  | .null => .ok []
  | .arr xs => .ok xs
  | other =>
      .error ("Expected list for '" ++ key ++ "', got " ++ other.typeName)

/-- Loop body of `_parse_sim_nodes`: accumulates the `nodes` dict (keyed by
the unstripped `name`, insertion-ordered). -/
def parse_sim_nodes_go :
    List Json → List (String × SimNodeSpec) →
      Except String (List (String × SimNodeSpec))
  | [], nodes => .ok nodes
  | entry :: rest, nodes =>
      if !entry.isObj then .error "Entries under 'simNodes' must be mappings"
      else
        match strWithContent (entry.get "name") with
        | none => .error "Each simNode requires a string 'name'"
        | some nameS =>
            if (assocLookup nodes nameS).isSome then
              .error ("Duplicate simNode name '" ++ nameS ++ "' detected")
            else
              match strWithContent (entry.get "image") with
              | none => .error ("simNode '" ++ nameS ++ "' requires a string 'image'")
              | some imageS =>
                  match strWithContent (entry.getD "type" (.str "linux")) with
                  | none => .error ("simNode '" ++ nameS ++ "' requires a valid 'type'")
                  | some typeS =>
                      parse_sim_nodes_go rest
                        (nodes ++ [(nameS,
                          ⟨pyStrip nameS, pyStrip imageS, pyStrip typeS, entry⟩)])

/-- `_parse_sim_nodes`. -/
def parse_sim_nodes (raw_nodes : List Json) :
    Except String (List (String × SimNodeSpec)) :=
  match parse_sim_nodes_go raw_nodes [] with
  | .error e => .error e
  | .ok nodes =>
      if nodes.isEmpty then .error "At least one simNode must be provided"
      else .ok nodes

/-- `", ".join(sorted(known_nodes)) or "<none>"`. -/
def joinKnownNames (known : List (String × SimNodeSpec)) : String :=
  let j := String.intercalate ", " (pySorted strLe (known.map Prod.fst))
  if j = "" then "<none>" else j

/-- Loop body of `_parse_attachments`. -/
def parse_attachments_go (known : List (String × SimNodeSpec)) :
    List Json → Except String (List AttachmentSpec)
  | [] => .ok []
  | entry :: rest =>
      if !entry.isObj then .error "Entries under 'topology' must be mappings"
      else
        match strWithContent (entry.get "node"), strWithContent (entry.get "interface"),
            strWithContent (entry.get "simNode"),
            strWithContent (Json.pyOr (entry.get "simNodeInterface")
              (entry.get "interface")) with
        | some fn, some fi, some sn, some si =>
            if (assocLookup known sn).isSome then
              match parse_attachments_go known rest with
              | .error e => .error e
              | .ok atts =>
                  .ok (⟨pyStrip fn, pyStrip fi, pyStrip sn, pyStrip si,
                    if (Json.pyOr (entry.get "vlan") (entry.get "vlanId")).isStrOrInt
                    then some (pyStr (Json.pyOr (entry.get "vlan") (entry.get "vlanId")))
                    else none⟩ :: atts)
            else
              .error ("Topology entry references unknown simNode '" ++ sn ++
                "'. Available simNodes: " ++ joinKnownNames known)
        | _, _, _, _ =>
            .error "Topology entries require node/interface pairs on both fabric and sim sides"

/-- `_parse_attachments`. -/
def parse_attachments (raw_attachments : List Json)
    (known_nodes : List (String × SimNodeSpec)) :
    Except String (List AttachmentSpec) :=
  if known_nodes.isEmpty then .ok []
  else
    match parse_attachments_go known_nodes raw_attachments with
    | .error e => .error e
    | .ok atts =>
        if atts.isEmpty then
          .error "At least one topology attachment must be provided"
        else .ok atts

/-- Base-mapping resolution of `parse_simulation_spec`: the `items`-wrapped
shape, the `spec`-wrapped shape, or the bare mapping. -/
def spec_base (raw : Json) : Except String Json :=
  if raw.hasKey "items" then
    match raw.get "items" with
    | .arr (first :: _) =>
        let base := if first.isObj then first.get "spec" else Json.null
        if base.isObj then .ok base
        else .error "items[0].spec must be a mapping"
    | _ => .error "'items' must contain at least one entry"
  else
    let sv := raw.get "spec"
    .ok (if sv.isObj then sv else raw)

/-- Validation of a resolved base mapping (the tail of
`parse_simulation_spec` after base resolution). -/
def parse_from_base (base : Json) : Except String SimulationSpec :=
  match ensure_list (base.get "simNodes") "simNodes" with
  | .error e => .error e
  | .ok sim_nodes_raw =>
      match ensure_list (base.get "topology") "topology" with
      | .error e => .error e
      | .ok topology_raw =>
          match parse_sim_nodes sim_nodes_raw with
          | .error e => .error e
          | .ok nodes =>
              match parse_attachments topology_raw nodes with
              | .error e => .error e
              | .ok attachments => .ok ⟨nodes, attachments⟩

/-- `parse_simulation_spec` (callers always pass a mapping, per `read_yaml`). -/
def parse_simulation_spec (raw : Json) : Except String SimulationSpec :=
  match spec_base raw with
  | .error e => .error e
  | .ok base => parse_from_base base

/-! ## `topology.py`: effective VLAN / interface resolution -/

/-- Loop of `_select_vlan`: first attachment whose `vlan` is truthy. -/
def first_attachment_vlan : List AttachmentSpec → Option String
  | [] => none
  | a :: rest =>
      if truthyStrOpt a.vlan then a.vlan else first_attachment_vlan rest

/-- `_select_vlan`. -/
def select_vlan (node : SimNodeSpec) (attachments : List AttachmentSpec) :
    Option String :=
  if truthyStrOpt node.vlan then node.vlan
  else first_attachment_vlan attachments

/-- Loop of `_select_interface`: first attachment whose `sim_interface` is
truthy. -/
def first_attachment_interface : List AttachmentSpec → Option String
  | [] => none
  | a :: rest =>
      if a.sim_interface != "" then some a.sim_interface
      else first_attachment_interface rest

/-- `_select_interface`. -/
def select_interface (node : SimNodeSpec) (attachments : List AttachmentSpec) :
    Option String :=
  if truthyStrOpt node.interface then node.interface
  else first_attachment_interface attachments

/-! ## `auto.py`: auto-generation of simulation specs

`build_auto_plan` is embedded from its pure core: the `kubectl`-loaded
resource lists (`_load_resource_items` / `_collect_interfaces`) are taken as
parameters — `virtual_networks` as a list of documents, `interfaces` as the
insertion-ordered name-to-document dict `_collect_interfaces` builds.

Python's lazy IP-allocation generators are mutable objects created once per
bridge domain per VirtualNetwork (`_build_ip_allocators`) and shared by
reference wherever the same dict entry is handed out.  The embedding gives
each generator the identity `(vn_index, bridge_domain)` and keeps its
remaining-address list in an explicit store threaded through the collection
pass; `VlanDefinition.ip_pool` holds the generator's identity. -/

def DEFAULT_IMAGE : String := "ghcr.io/srl-labs/network-multitool:v0.4.1"
def DEFAULT_NODE_TYPE : String := "Linux"
def DEFAULT_SIM_INTERFACE : String := "eth1"
def MAX_NAME_LENGTH : Nat := 63

/-- `AutoAttachment` dataclass. -/
structure AutoAttachment where
  virtual_network : String
  vlan_name : String
  vlan_id : Option String
  interface_name : String
  fabric_node : String
  fabric_interface : String
  sim_name : String
  ip_address : Option String
deriving DecidableEq

/-- `AutoPlan` dataclass. -/
structure AutoPlan where
  raw_spec : Json
  attachments : List AutoAttachment

/-- `VlanDefinition` dataclass; `ip_pool` is the identity of the allocator
generator (or `none`), see the section comment. -/
structure VlanDefinition where
  virtual_network : String
  vlan_name : String
  vlan_id : Option String
  selectors : List String
  ip_pool : Option (Nat × String)
deriving DecidableEq

/-- `_parse_selector`: split on the first `=` when present; key and value are
stripped. -/
def parse_selector (selector : String) : String × Option String :=
  let pre := selector.data.takeWhile (fun c => c ≠ '=')
  let post := selector.data.dropWhile (fun c => c ≠ '=')
  match post with
  | [] => (pyStrip selector, none)
  | _ :: rest => (pyStrip ⟨pre⟩, some (pyStrip ⟨rest⟩))

/-- `_matches_selector`. -/
def matches_selector (interface : Json) (selector : String) : Bool :=
  let key := (parse_selector selector).1
  let expected := (parse_selector selector).2
  if key = "" then false
  else
    let labels := (interface.getD "metadata" (.obj [])).getD "labels" (.obj [])
    match labels with
    | .obj kvs =>
        match Json.lookupKey kvs key with
        | none => false
        | some v =>
            match expected with
            | none => true
            | some exp => pyStr v == exp
    | _ => false

/-- `_extract_fabric_endpoint`. -/
def extract_fabric_endpoint (interface : Json) :
    Option String × Option String :=
  let spec := if interface.isObj then interface.get "spec" else Json.null
  let members := if spec.isObj then spec.get "members" else Json.null
  match members with
  | .arr (primary :: _) =>
      let node := if primary.isObj then primary.get "node" else Json.null
      let iface := if primary.isObj then primary.get "interface" else Json.null
      match node, iface with
      | .str n, .str i => (some n, some i)
      | _, _ => (none, none)
  | _ => (none, none)

/-- `_selectors_from_vlan_spec`. -/
def selectors_from_vlan_spec (vlan_spec : Json) : List String :=
  match vlan_spec.get "interfaceSelector" with
  | .str s => [s]
  | .arr xs =>
      xs.filterMap fun j => match j with | .str s => some s | _ => none
  | _ => []

/-! ### IPv4 addresses (`ipaddress.IPv4Interface`) -/

/-- Dotted-quad rendering of a 32-bit address (Python `str(IPv4Address)`). -/
def ipv4Repr (n : Nat) : String :=
  Nat.repr (n / 16777216 % 256) ++ "." ++ Nat.repr (n / 65536 % 256) ++ "." ++
    Nat.repr (n / 256 % 256) ++ "." ++ Nat.repr (n % 256)

/-- Split a character list on every occurrence of `c` (Python
`str.split(sep)` for a one-character separator). -/
def splitCharList (c : Char) : List Char → List (List Char)
  | [] => [[]]
  | x :: xs =>
      match splitCharList c xs with
      | [] => [[]]
      | g :: gs => if x = c then [] :: g :: gs else (x :: g) :: gs

/-- Python `s.split(sep)` for a one-character separator. -/
def splitOnChar (c : Char) (s : String) : List String :=
  (splitCharList c s.data).map (fun l => ⟨l⟩)

/-- One octet of a dotted-quad string: ASCII digits only, at most three of
them, no leading zero, value at most 255 (Python's `_parse_octet`). -/
def parseOctet (s : String) : Option Nat :=
  if s = "" then none
  else if !s.data.all (fun c => c.isDigit) then none
  else if s.data.length > 3 then none
  else if s.data.head? = some '0' && s.data.length != 1 then none
  else
    let v := s.data.foldl (fun a c => a * 10 + (c.toNat - 48)) 0
    if v ≤ 255 then some v else none

def parseIPv4Addr (s : String) : Option Nat :=
  match (splitOnChar '.' s).map parseOctet with
  | [some a, some b, some c, some d] =>
      some (((a * 256 + b) * 256 + c) * 256 + d)
  | _ => none

/-- Decimal prefix length `0..32` (dotted-netmask spellings, which never occur
in the inputs considered, are not modelled). -/
def parsePfxLen (s : String) : Option Nat :=
  if s = "" then none
  else if s.data.all (fun c => c.isDigit) then
    let v := s.data.foldl (fun a c => a * 10 + (c.toNat - 48)) 0
    if v ≤ 32 then some v else none
  else none

/-- `IPv4Interface(text)`: `(address, prefix length)`; a missing
`/length` means `/32`.  `none` models the `AddressValueError` Python raises. -/
def parseIPv4Interface (s : String) : Option (Nat × Nat) :=
  match splitOnChar '/' s with
  | [addr] => (parseIPv4Addr addr).map (fun a => (a, 32))
  | [addr, p] =>
      match parseIPv4Addr addr, parsePfxLen p with
      | some a, some pl => some (a, pl)
      | _, _ => none
  | _ => none

/-- `_ip_allocator`: the finite sequence the Python generator yields, in
order.  `network.hosts()` is all addresses strictly between the network and
broadcast addresses, except that a `/31` network yields both of its addresses
and a `/32` network yields its single address (CPython `IPv4Network`);
the gateway address itself is skipped and each host is rendered as
`address/prefixlen`. -/
def ip_allocator (addr plen : Nat) : List String :=
  let block := 2 ^ (32 - plen)
  let netaddr := addr - addr % block
  let hosts : List Nat :=
    if plen = 31 then [netaddr, netaddr + 1]
    else if plen = 32 then [netaddr]
    else (List.range (block - 2)).map (fun i => netaddr + 1 + i)
  (hosts.filter (fun h => h ≠ addr)).map
    (fun h => ipv4Repr h ++ "/" ++ Nat.repr plen)

/-- Primary-address selection loop inside `_build_ip_allocators`: the last
valid `ipPrefix` seen wins unless an entry flagged `primary` ends the scan
early; a malformed `ipPrefix` string raises. -/
def select_primary_addr : List Json → Option (Nat × Nat) →
    Except String (Option (Nat × Nat))
  | [], primary => .ok primary
  | ip_entry :: rest, primary =>
      if !ip_entry.isObj then select_primary_addr rest primary
      else
        let ipv4 := ip_entry.get "ipv4Address"
        if !ipv4.isObj then select_primary_addr rest primary
        else
          match ipv4.get "ipPrefix" with
          | .str ps =>
              match parseIPv4Interface ps with
              | none => .error ("invalid IPv4 address/prefix: " ++ ps)
              | some iface =>
                  if (ip_entry.getD "primary" (.bool false)).truthy then
                    .ok (some iface)
                  else select_primary_addr rest (some iface)
          | _ => select_primary_addr rest primary

/-- Loop body of `_build_ip_allocators`: the per-VirtualNetwork dict from
bridge-domain name to the gateway interface its allocator is built from. -/
def build_ip_allocators_go :
    List Json → List (String × (Nat × Nat)) →
      Except String (List (String × (Nat × Nat)))
  | [], allocators => .ok allocators
  | entry :: rest, allocators =>
      if !entry.isObj then build_ip_allocators_go rest allocators
      else
        let spec_entry :=
          if (entry.get "spec").isObj then entry.get "spec" else Json.obj []
        match spec_entry.get "bridgeDomain", spec_entry.get "ipAddresses" with
        | .str bd, .arr addrs =>
            match select_primary_addr addrs none with
            | .error e => .error e
            | .ok none => build_ip_allocators_go rest allocators
            | .ok (some iface) =>
                build_ip_allocators_go rest (assocSet allocators bd iface)
        | _, _ => build_ip_allocators_go rest allocators

/-- `_build_ip_allocators`. -/
def build_ip_allocators (virtual_network : Json) :
    Except String (List (String × (Nat × Nat))) :=
  let spec :=
    if virtual_network.isObj then virtual_network.get "spec" else Json.null
  let irb := if spec.isObj then spec.get "irbInterfaces" else Json.null
  match irb with
  | .arr entries => build_ip_allocators_go entries []
  | _ => .ok []

/-- `_matching_interfaces`: interfaces (in dict order) whose labels satisfy at
least one selector; unnamed interfaces are skipped. -/
def matching_interfaces (selectors : List String)
    (interfaces : List (String × Json)) : List (String × Json) :=
  interfaces.foldl
    (fun acc nmitf =>
      if nmitf.1 = "" then acc
      else if selectors.any (fun sel => matches_selector nmitf.2 sel) then
        Json.dictInsert acc nmitf.1 nmitf.2
      else acc)
    []

/-- Python `str.lower()` (agrees with `Char.toLower` on the ASCII names that
occur here). -/
def pyLower (s : String) : String := ⟨s.data.map Char.toLower⟩

/-- `_generate_sim_name`. -/
def generate_sim_name (interface_name : String) : String :=
  let base : String :=
    ⟨(pyLower interface_name).data.map (fun c => if c = '_' then '-' else c)⟩
  if base.data.length ≤ MAX_NAME_LENGTH then base
  else ⟨base.data.take MAX_NAME_LENGTH⟩

/-- Loop body of `_gather_vlan_definitions`. -/
def gather_vlan_definitions_go (vnIdx : Nat) (vn_name : String)
    (allocs : List (String × (Nat × Nat))) : List Json → List VlanDefinition
  | [] => []
  | vlan_entry :: rest =>
      if !vlan_entry.isObj then
        gather_vlan_definitions_go vnIdx vn_name allocs rest
      else
        let vlan_name :=
          if (vlan_entry.get "name").truthy then pyStr (vlan_entry.get "name")
          else vn_name
        let vlan_spec :=
          if (vlan_entry.get "spec").isObj then vlan_entry.get "spec"
          else Json.obj []
        let selectors := selectors_from_vlan_spec vlan_spec
        if selectors.isEmpty then
          gather_vlan_definitions_go vnIdx vn_name allocs rest
        else
          let vlan_id :=
            match Json.pyOr (vlan_spec.get "vlanID") (vlan_spec.get "vlanId") with
            | .null => none
            | v => some (pyStr v)
          let ip_pool :=
            match vlan_spec.get "bridgeDomain" with
            | .str bd =>
                if (assocLookup allocs bd).isSome then some (vnIdx, bd)
                else none
            | _ => none
          ⟨vn_name, vlan_name, vlan_id, selectors, ip_pool⟩ ::
            gather_vlan_definitions_go vnIdx vn_name allocs rest

/-- `_gather_vlan_definitions`, returning the definitions together with the
freshly created allocator store entries for this VirtualNetwork. -/
def gather_vlan_definitions (vnIdx : Nat) (vn : Json) :
    Except String (List VlanDefinition × List ((Nat × String) × List String)) :=
  match if vn.isObj then vn.get "spec" else Json.null with
  | .obj spec_kvs =>
      match (Json.obj spec_kvs).get "vlans" with
      | .arr vlans =>
          let vn_name :=
            pyStr ((vn.getD "metadata" (.obj [])).getD "name" (.str "virtualnetwork"))
          match build_ip_allocators vn with
          | .error e => .error e
          | .ok allocs =>
              .ok (gather_vlan_definitions_go vnIdx vn_name allocs vlans,
                allocs.map (fun bda => ((vnIdx, bda.1), ip_allocator bda.2.1 bda.2.2)))
      | _ => .ok ([], [])
  | _ => .ok ([], [])

/-! ### The collection pass (`_collect_auto_attachments`) -/

/-- Mutable state of one collection pass: the accumulating sim-node dict and
attachment list, the `(vlan name, interface name)` dedup set, and the shared
allocator store. -/
structure CollectState where
  sim_nodes : List (String × Json)
  attachments : List AutoAttachment
  seen_pairs : List (String × String)
  store : List ((Nat × String) × List String)

/-- `next(pool)` with `StopIteration` mapped to `none`. -/
def store_next (store : List ((Nat × String) × List String))
    (pid : Nat × String) :
    Option String × List ((Nat × String) × List String) :=
  match assocLookup store pid with
  | some (ip :: rest) => (some ip, assocSet store pid rest)
  | some [] => (none, store)
  | none => (none, store)

/-- Innermost loop body of `_collect_auto_attachments`: one matched
interface for one VLAN definition. -/
def process_match (definition : VlanDefinition) (interface_name : String)
    (interface : Json) (st : CollectState) : CollectState :=
  if (definition.vlan_name, interface_name) ∈ st.seen_pairs then st
  else
    let seen := (definition.vlan_name, interface_name) :: st.seen_pairs
    match extract_fabric_endpoint interface with
    | (some fabric_node, some fabric_interface) =>
        if fabric_node = "" || fabric_interface = "" then
          { st with seen_pairs := seen }
        else
          let sim_name := generate_sim_name interface_name
          let ipstore :=
            match definition.ip_pool with
            | none => (none, st.store)
            | some pid => store_next st.store pid
          let ip_address := ipstore.1
          let node_entry0 :=
            match assocLookup st.sim_nodes sim_name with
            | some e => e
            | none =>
                Json.obj [("name", .str sim_name), ("image", .str DEFAULT_IMAGE),
                  ("type", .str DEFAULT_NODE_TYPE),
                  ("interface", .str DEFAULT_SIM_INTERFACE)]
          let sim_nodes1 :=
            match assocLookup st.sim_nodes sim_name with
            | some _ => st.sim_nodes
            | none => st.sim_nodes ++ [(sim_name, node_entry0)]
          let node_entry1 :=
            match definition.vlan_id with
            | some v =>
                if v != "" && !(node_entry0.hasKey "vlan") then
                  node_entry0.objSet "vlan" (.str v)
                else node_entry0
            | none => node_entry0
          let node_entry2 :=
            match ip_address with
            | some ip =>
                if ip != "" && !(node_entry1.hasKey "ipAddress") then
                  node_entry1.objSet "ipAddress" (.str ip)
                else node_entry1
            | none => node_entry1
          { sim_nodes := assocSet sim_nodes1 sim_name node_entry2,
            attachments := st.attachments ++
              [⟨definition.virtual_network, definition.vlan_name,
                definition.vlan_id, interface_name, fabric_node,
                fabric_interface, sim_name, ip_address⟩],
            seen_pairs := seen,
            store := ipstore.2 }
    | _ => { st with seen_pairs := seen }

/-- Per-definition loop: all matching interfaces in dict order. -/
def process_definition (interfaces : List (String × Json))
    (st : CollectState) (definition : VlanDefinition) : CollectState :=
  (matching_interfaces definition.selectors interfaces).foldl
    (fun st nmitf => process_match definition nmitf.1 nmitf.2 st) st

/-- Per-VirtualNetwork step: gather this VN's definitions (creating its
allocators) and process each definition. -/
def process_vn (interfaces : List (String × Json)) (st : CollectState)
    (vnIdx : Nat) (vn : Json) : Except String CollectState :=
  match gather_vlan_definitions vnIdx vn with
  | .error e => .error e
  | .ok (defs, entries) =>
      .ok (defs.foldl (process_definition interfaces)
        { st with store := st.store ++ entries })

def collect_vns (interfaces : List (String × Json)) :
    List (Nat × Json) → CollectState → Except String CollectState
  | [], st => .ok st
  | (i, vn) :: rest, st =>
      match process_vn interfaces st i vn with
      | .error e => .error e
      | .ok st' => collect_vns interfaces rest st'

/-! ### Merging (`_merge_attachments`) -/

/-- The Python sort key
`(0 if att.ip_address else 1, att.vlan_id or "", att.virtual_network)`. -/
def merge_key (a : AutoAttachment) : Nat × String × String :=
  (if truthyStrOpt a.ip_address then 0 else 1, a.vlan_id.getD "",
    a.virtual_network)

/-- Tuple comparison of merge keys. -/
def merge_le (a b : AutoAttachment) : Bool :=
  pairLe natLt (pairLe strLt strLe) (merge_key a) (merge_key b)

/-- `grouped.setdefault(attachment.interface_name, []).append(attachment)`. -/
def addToGroups : List (String × List AutoAttachment) → AutoAttachment →
    List (String × List AutoAttachment)
  | [], a => [(a.interface_name, [a])]
  | (k, g) :: rest, a =>
      if k = a.interface_name then (k, g ++ [a]) :: rest
      else (k, g) :: addToGroups rest a

/-- The grouping loop of `_merge_attachments`: groups keyed by
`interface_name` in first-occurrence order, members in input order. -/
def groupByInterface (atts : List AutoAttachment) :
    List (String × List AutoAttachment) :=
  atts.foldl addToGroups []

/-- Per-group step of `_merge_attachments`: sort the group by the merge key
(stably), take the head as primary, backfill the primary's vlan/ip into its
sim-node entry, and append the primary.  A group is never empty by
construction. -/
def merge_step (acc : List (String × Json) × List AutoAttachment)
    (grp : String × List AutoAttachment) :
    List (String × Json) × List AutoAttachment :=
  match pySorted merge_le grp.2 with
  | [] => acc
  | primary :: _ =>
      let sim_nodes :=
        match assocLookup acc.1 primary.sim_name with
        | none => acc.1
        | some node_entry =>
            let e1 :=
              match primary.vlan_id with
              | some v =>
                  if v != "" && !(node_entry.hasKey "vlan") then
                    node_entry.objSet "vlan" (.str v)
                  else node_entry
              | none => node_entry
            let e2 :=
              match primary.ip_address with
              | some ip =>
                  if ip != "" && !(e1.hasKey "ipAddress") then
                    e1.objSet "ipAddress" (.str ip)
                  else e1
              | none => e1
            assocSet acc.1 primary.sim_name e2
      (sim_nodes, acc.2 ++ [primary])

/-- `_merge_attachments`. -/
def merge_attachments (sim_nodes : List (String × Json))
    (attachments : List AutoAttachment) :
    List (String × Json) × List AutoAttachment :=
  (groupByInterface attachments).foldl merge_step (sim_nodes, [])

/-- `_collect_auto_attachments` (ending with the merge step, as in the
source). -/
def collect_auto_attachments (virtual_networks : List Json)
    (interfaces : List (String × Json)) :
    Except String (List (String × Json) × List AutoAttachment) :=
  match collect_vns interfaces virtual_networks.enum ⟨[], [], [], []⟩ with
  | .error e => .error e
  | .ok st => .ok (merge_attachments st.sim_nodes st.attachments)

/-! ### Renaming (`_rename_servers`) -/

/-- The canonical sort key of the rename step. -/
def rename_key (a : AutoAttachment) :
    String × String × String × String × String :=
  (a.fabric_node, a.fabric_interface, a.virtual_network, a.vlan_name,
    a.interface_name)

/-- Tuple comparison of rename keys. -/
def rename_le (a b : AutoAttachment) : Bool :=
  pairLe strLt (pairLe strLt (pairLe strLt (pairLe strLt strLe)))
    (rename_key a) (rename_key b)

/-- Accumulator of the rename loop: `name_map`, `renamed_nodes`,
`renamed_attachments`. -/
structure RenameState where
  name_map : List (String × String)
  renamed_nodes : List (String × Json)
  renamed_attachments : List AutoAttachment

/-- Loop body of `_rename_servers`, processing attachments in canonical
order. -/
def rename_servers_go (sim_nodes : List (String × Json)) :
    List AutoAttachment → RenameState → RenameState
  | [], st => st
  | attachment :: rest, st =>
      let old_name := attachment.sim_name
      let step :=
        match assocLookup st.name_map old_name with
        | some new_name => (new_name, st.name_map, st.renamed_nodes)
        | none =>
            let index := st.name_map.length + 1
            let new_name := serverName index
            let node_entry0 := match assocLookup sim_nodes old_name with
              | some e => e
              | none => Json.obj []
            let node_entry1 :=
              if !node_entry0.truthy then
                Json.obj [("name", .str new_name), ("image", .str DEFAULT_IMAGE),
                  ("type", .str DEFAULT_NODE_TYPE),
                  ("interface", .str DEFAULT_SIM_INTERFACE)]
              else node_entry0
            let node_entry2 := node_entry1.objSet "name" (.str new_name)
            (new_name, st.name_map ++ [(old_name, new_name)],
              assocSet st.renamed_nodes new_name node_entry2)
      rename_servers_go sim_nodes rest
        { name_map := step.2.1,
          renamed_nodes := step.2.2,
          renamed_attachments := st.renamed_attachments ++
            [{ attachment with sim_name := step.1 }] }

/-- `_rename_servers`. -/
def rename_servers (sim_nodes : List (String × Json))
    (attachments : List AutoAttachment) :
    List (String × Json) × List AutoAttachment :=
  let ordered := pySorted rename_le attachments
  let st := rename_servers_go sim_nodes ordered ⟨[], [], []⟩
  (st.renamed_nodes, st.renamed_attachments)

/-! ### `build_auto_plan` -/

/-- One topology entry of the synthesized raw spec. -/
def topology_entry (a : AutoAttachment) : Json :=
  .obj ([("node", .str a.fabric_node), ("interface", .str a.fabric_interface),
    ("simNode", .str a.sim_name),
    ("simNodeInterface", .str DEFAULT_SIM_INTERFACE)] ++
    (match a.vlan_id with
     | some v => if v ≠ "" then [("vlan", Json.str v)] else []
     | none => []))

/-- `build_auto_plan`, cut at the `kubectl` boundary: the loaded
VirtualNetwork documents and the name-keyed Interface dict are parameters,
`topo_ns` only feeds error messages. -/
def build_auto_plan (topo_ns : String) (virtual_networks : List Json)
    (interfaces : List (String × Json)) : Except String AutoPlan :=
  if virtual_networks.isEmpty then
    .error ("No VirtualNetwork resources found in namespace " ++ topo_ns)
  else if interfaces.isEmpty then
    .error ("No Interface resources found in namespace " ++ topo_ns)
  else
    match collect_auto_attachments virtual_networks interfaces with
    | .error e => .error e
    | .ok (sim_nodes, attachments) =>
        if attachments.isEmpty then
          .error "No interfaces matched the VirtualNetwork selectors; cannot synthesise simulation spec."
        else
          let renamed := rename_servers sim_nodes attachments
          let sim_nodes_list :=
            (List.range renamed.1.length).filterMap
              (fun i => assocLookup renamed.1 (serverName (i + 1)))
          .ok
            { raw_spec := .obj [("simNodes", .arr sim_nodes_list),
                ("topology", .arr (renamed.2.map topology_entry))],
              attachments := renamed.2 }

/-! ## Concrete fixtures used by counterexamples and witnesses -/

/-- An Interface document with an empty `metadata.name` but matching labels. -/
def c7UnnamedIface : Json :=
  .obj [("metadata", .obj [("name", .str ""), ("labels", .obj [("k", .str "v")])])]

/-- An Interface document named `a` with label `k`. -/
def c7NamedIface : Json :=
  .obj [("metadata", .obj [("name", .str "a"), ("labels", .obj [("k", .str "v")])])]

/-- A validated simNode with neither `vlan` nor `interface` set. -/
def c9Node : SimNodeSpec :=
  ⟨"n1", "img", "linux", .obj [("name", .str "n1"), ("image", .str "img")]⟩

/-- First attachment of `n1`: no VLAN. -/
def c9Att1 : AttachmentSpec := ⟨"leaf1", "e1", "n1", "eth1", none⟩

/-- Second attachment of `n1`: VLAN `10`. -/
def c9Att2 : AttachmentSpec := ⟨"leaf1", "e2", "n1", "eth1", some "10"⟩

/-- Attachment with an allocated IP. -/
def c2a : AutoAttachment :=
  ⟨"vn1", "v1", some "10", "if1", "n1", "p1", "if1", some "10.0.0.1/24"⟩

/-- Attachment on the same interface without an IP. -/
def c2b : AutoAttachment := ⟨"vn2", "v2", some "20", "if1", "n1", "p1", "if1", none⟩

/-- Merged attachment on interface `ifa`. -/
def c1x : AutoAttachment := ⟨"vn1", "v1", some "10", "ifa", "n1", "p1", "ifa", none⟩

/-- Merged attachment on interface `ifb`. -/
def c1y : AutoAttachment := ⟨"vn2", "v2", some "20", "ifb", "n1", "p2", "ifb", none⟩

/-- A VirtualNetwork with one VLAN entry (no IP pools). -/
def c1Vn (vnName selName vlanName : String) : Json :=
  .obj [("metadata", .obj [("name", .str vnName)]),
    ("spec", .obj [("vlans", .arr [.obj [("name", .str vlanName),
      ("spec", .obj [("interfaceSelector", .str selName)])]])])]

def c1VnA : Json := c1Vn "vna" "k1" "v"

def c1VnB : Json := c1Vn "vnb" "k2" "w"

/-- Same VLAN label `v` as `c1VnA`, under a different VirtualNetwork name. -/
def c1VnC : Json := c1Vn "vnc" "k1" "v"

/-- A VLAN entry of the shared-bridge-domain VirtualNetwork fixture. -/
def c6Vlan (nm sel : String) : Json :=
  .obj [("name", .str nm), ("spec", .obj [("bridgeDomain", .str "bd1"),
    ("interfaceSelector", .str sel), ("vlanID", .str "7")])]

/-- A VirtualNetwork whose two VLAN entries name the same bridge domain
`bd1`, which carries one IRB gateway `10.0.0.254/24`. -/
def c6VN : Json :=
  .obj [("metadata", .obj [("name", .str "vn1")]),
    ("spec", .obj [
      ("irbInterfaces", .arr [.obj [("spec", .obj [("bridgeDomain", .str "bd1"),
        ("ipAddresses", .arr [.obj [("ipv4Address",
          .obj [("ipPrefix", .str "10.0.0.254/24")])]])])]]),
      ("vlans", .arr [c6Vlan "v1" "s1", c6Vlan "v2" "s2"])])]

/-- An Interface document with one label and one fabric member. -/
def c6Iface (nm node sel : String) : Json :=
  .obj [("metadata", .obj [("name", .str nm), ("labels", .obj [(sel, .str "1")])]),
    ("spec", .obj [("members", .arr [.obj [("node", .str node),
      ("interface", .str "p1")]])])]

/-- Two interfaces, matched by the first and second VLAN respectively. -/
def c6Ifaces : List (String × Json) :=
  [("i1", c6Iface "i1" "n1" "s1"), ("i2", c6Iface "i2" "n1" "s2")]

/-- Two interfaces on the same fabric endpoint, labelled `k1` and `k2`. -/
def c1Ifaces : List (String × Json) :=
  [("i1", c6Iface "i1" "n" "k1"), ("j1", c6Iface "j1" "n" "k2")]

/-- The final device-identifier assignment (interface resource name to
simulated-device name) of an auto-generated plan. -/
def c1Assign (vns : List Json) : List (String × String) :=
  match build_auto_plan "eda" vns c1Ifaces with
  | .ok p => p.attachments.map (fun a => (a.interface_name, a.sim_name))
  | .error _ => []


/-- Invariant of the sim-node dict entries maintained by collection, merging
and renaming: a non-empty object whose `image` and `type` fields hold the
default image and node type. -/
def GoodNode (e : Json) : Prop :=
  ∃ kvs, e = Json.obj kvs ∧ kvs ≠ [] ∧
    Json.lookupKey kvs "image" = some (.str DEFAULT_IMAGE) ∧
    Json.lookupKey kvs "type" = some (.str DEFAULT_NODE_TYPE)

/-- A VirtualNetwork with one VLAN entry carrying a VLAN id and a
key-existence selector `k1` (no IP pools). -/
def c3xVn : Json :=
  .obj [("metadata", .obj [("name", .str "vnx")]),
    ("spec", .obj [("vlans", .arr [.obj [("name", .str "v1"),
      ("spec", .obj [("interfaceSelector", .str "k1"),
        ("vlanID", .str "10")])]])])]

/-- An Interface labelled `k1` whose fabric member interface carries a leading
space (`" e1"`), as CRD data may. -/
def c3xIface : Json :=
  .obj [("metadata", .obj [("name", .str "i1"),
      ("labels", .obj [("k1", .str "1")])]),
    ("spec", .obj [("members", .arr [.obj [("node", .str "leaf1"),
      ("interface", .str " e1")]])])]

def c3xIfaces : List (String × Json) := [("i1", c3xIface)]

/-- Like `c3xIface`, with a clean fabric member interface `"e1"`. -/
def c3wIface : Json :=
  .obj [("metadata", .obj [("name", .str "i1"),
      ("labels", .obj [("k1", .str "1")])]),
    ("spec", .obj [("members", .arr [.obj [("node", .str "leaf1"),
      ("interface", .str "e1")]])])]

def c3wIfaces : List (String × Json) := [("i1", c3wIface)]

/-- The plan `build_auto_plan` produces from `[c3xVn]` and `c3wIfaces`. -/
def c3wPlan : AutoPlan :=
  ⟨.obj [("simNodes", .arr [.obj [("name", .str "server1"),
      ("image", .str DEFAULT_IMAGE), ("type", .str DEFAULT_NODE_TYPE),
      ("interface", .str "eth1"), ("vlan", .str "10")]]),
    ("topology", .arr [.obj [("node", .str "leaf1"), ("interface", .str "e1"),
      ("simNode", .str "server1"), ("simNodeInterface", .str "eth1"),
      ("vlan", .str "10")]])],
   [⟨"vnx", "v1", some "10", "i1", "leaf1", "e1", "server1", none⟩]⟩

/-- A spec whose only topology entry references an unknown simNode. -/
def c8Raw : Json :=
  .obj [("simNodes", .arr [.obj [("name", .str "n1"), ("image", .str "img")]]),
    ("topology", .arr [.obj [("node", .str "f"), ("interface", .str "e"),
      ("simNode", .str "ghost")]])]

/-- The parsed simNodes dict of `c8Raw`. -/
def c8Nodes : List (String × SimNodeSpec) :=
  [("n1", ⟨"n1", "img", "linux",
    .obj [("name", .str "n1"), ("image", .str "img")]⟩)]

/-- A valid bare simplified spec. -/
def c10Valid : Json :=
  .obj [("simNodes", .arr [.obj [("name", .str "n1"), ("image", .str "img")]]),
    ("topology", .arr [.obj [("node", .str "f1"), ("interface", .str "e1"),
      ("simNode", .str "n1")]])]

/-- A document whose `spec` key holds `c10Valid`. -/
def c10Inner : Json := .obj [("spec", c10Valid)]

/-! ## General lemmas -/

theorem decDigitVal_digitChar (m : Nat) (h : m < 10) :
    decDigitVal (Nat.digitChar m) = m := by
  interval_cases m <;> rfl

theorem toDigitsCore_decVal :
    ∀ (f n : Nat) (acc : List Char), n < f →
      decValChars (Nat.toDigitsCore 10 f n acc) =
        n * 10 ^ acc.length + decValChars acc := by
  intro f
  induction f with
  | zero => intro n acc h; omega
  | succ f ih =>
      intro n acc h
      rw [Nat.toDigitsCore]
      by_cases hdiv : n / 10 = 0
      · simp only [hdiv, if_true, decValChars]
        have hmod : n % 10 = n := by omega
        rw [decDigitVal_digitChar _ (by omega), hmod]
      · simp only [hdiv, if_false]
        have hlt : n / 10 < f := by omega
        rw [ih (n / 10) (Nat.digitChar (n % 10) :: acc) hlt]
        simp only [decValChars, List.length_cons]
        rw [decDigitVal_digitChar _ (by omega)]
        have hk : n / 10 * 10 ^ (acc.length + 1) + n % 10 * 10 ^ acc.length
            = n * 10 ^ acc.length := by
          rw [pow_succ]
          calc n / 10 * (10 ^ acc.length * 10) + n % 10 * 10 ^ acc.length
              = (10 * (n / 10) + n % 10) * 10 ^ acc.length := by ring
            _ = n * 10 ^ acc.length := by rw [Nat.div_add_mod n 10]
        omega

theorem decVal_repr (n : Nat) : decValChars (Nat.repr n).data = n := by
  show decValChars (Nat.toDigits 10 n).asString.data = n
  have : (Nat.toDigits 10 n).asString.data = Nat.toDigits 10 n := rfl
  rw [this]
  show decValChars (Nat.toDigitsCore 10 (n + 1) n []) = n
  rw [toDigitsCore_decVal (n + 1) n [] (Nat.lt_succ_self n)]
  simp [decValChars]

theorem nat_repr_injective {m n : Nat} (h : Nat.repr m = Nat.repr n) : m = n := by
  have := congrArg (fun s => decValChars s.data) h
  simpa [decVal_repr] using this

theorem toDigitsCore_forall (q : Char → Prop)
    (hd : ∀ m, m < 10 → q (Nat.digitChar m)) :
    ∀ (f n : Nat) (acc : List Char), (∀ c ∈ acc, q c) →
      ∀ c ∈ Nat.toDigitsCore 10 f n acc, q c := by
  intro f
  induction f with
  | zero => intro n acc hacc; simpa [Nat.toDigitsCore] using hacc
  | succ f ih =>
      intro n acc hacc c hc
      rw [Nat.toDigitsCore] at hc
      by_cases hdiv : n / 10 = 0
      · simp only [hdiv, if_true] at hc
        rcases List.mem_cons.1 hc with h | h
        · exact h ▸ hd _ (Nat.mod_lt _ (by omega))
        · exact hacc _ h
      · simp only [hdiv, if_false] at hc
        refine ih (n / 10) (Nat.digitChar (n % 10) :: acc) ?_ c hc
        intro c' hc'
        rcases List.mem_cons.1 hc' with h | h
        · exact h ▸ hd _ (Nat.mod_lt _ (by omega))
        · exact hacc _ h

theorem repr_chars (q : Char → Prop) (hd : ∀ m, m < 10 → q (Nat.digitChar m))
    (n : Nat) : ∀ c ∈ (Nat.repr n).data, q c := by
  intro c hc
  exact toDigitsCore_forall q hd (n + 1) n [] (by simp) c hc

theorem toDigitsCore_ne_nil :
    ∀ (f n : Nat) (acc : List Char), acc ≠ [] ∨ f ≠ 0 →
      Nat.toDigitsCore 10 f n acc ≠ [] := by
  intro f
  induction f with
  | zero =>
      intro n acc h
      rcases h with h | h
      · simpa [Nat.toDigitsCore] using h
      · exact absurd rfl h
  | succ f ih =>
      intro n acc _
      rw [Nat.toDigitsCore]
      by_cases hdiv : n / 10 = 0
      · simp [hdiv]
      · simp only [hdiv, if_false]
        exact ih (n / 10) _ (Or.inl (by simp))

theorem repr_ne_empty (n : Nat) : Nat.repr n ≠ "" := by
  intro h
  have : (Nat.repr n).data = [] := by rw [h]
  exact toDigitsCore_ne_nil (n + 1) n [] (Or.inr (by omega)) this

theorem dropWhile_of_forall_not {p : Char → Bool} :
    ∀ {l : List Char}, (∀ c ∈ l, p c = false) → l.dropWhile p = l := by
  intro l h
  cases l with
  | nil => rfl
  | cons c cs => simp [List.dropWhile, h c (List.mem_cons_self _ _)]

theorem pyStrip_of_no_space {s : String}
    (h : ∀ c ∈ s.data, isPySpace c = false) : pyStrip s = s := by
  unfold pyStrip
  rw [dropWhile_of_forall_not h,
    dropWhile_of_forall_not (by intro c hc; exact h c (List.mem_reverse.1 hc)),
    List.reverse_reverse]

theorem string_ext {s t : String} (h : s.data = t.data) : s = t := by
  cases s; cases t; exact congrArg String.mk h

theorem serverName_data (i : Nat) :
    (serverName i).data = "server".data ++ (Nat.repr i).data := rfl

theorem serverName_injective {i j : Nat} (h : serverName i = serverName j) :
    i = j := by
  have hd := congrArg String.data h
  rw [serverName_data, serverName_data] at hd
  exact nat_repr_injective (string_ext (List.append_cancel_left hd))

theorem pyStrip_serverName (i : Nat) : pyStrip (serverName i) = serverName i := by
  apply pyStrip_of_no_space
  intro c hc
  rw [serverName_data] at hc
  rcases List.mem_append.1 hc with h | h
  · rw [show "server".data = ['s', 'e', 'r', 'v', 'e', 'r'] from rfl] at h
    fin_cases h <;> rfl
  · exact repr_chars (fun c => isPySpace c = false)
      (by intro m hm; interval_cases m <;> rfl) i c h

theorem serverName_ne_empty (i : Nat) : serverName i ≠ "" := by
  intro h
  have : (serverName i).data = [] := by rw [h]
  rw [serverName_data] at this
  simp at this

theorem charListLt_cons {a b : Char} {as bs : List Char} :
    charListLt (a :: as) (b :: bs) = true ↔
      a.toNat < b.toNat ∨ (a.toNat = b.toNat ∧ charListLt as bs = true) := by
  simp only [charListLt]
  by_cases h1 : a.toNat < b.toNat
  · rw [if_pos h1]; simp [h1]
  · rw [if_neg h1]
    by_cases h2 : b.toNat < a.toNat
    · rw [if_pos h2]
      constructor
      · intro h; exact absurd h (by simp)
      · rintro (h | ⟨h, _⟩) <;> omega
    · rw [if_neg h2]
      have he : a.toNat = b.toNat := by omega
      simp [he]

theorem charListLt_irrefl : ∀ l : List Char, charListLt l l = false := by
  intro l
  induction l with
  | nil => rfl
  | cons a as ih => simp [charListLt, ih]

theorem charListLt_trans :
    ∀ l1 l2 l3 : List Char, charListLt l1 l2 = true → charListLt l2 l3 = true →
      charListLt l1 l3 = true := by
  intro l1
  induction l1 with
  | nil =>
      intro l2 l3 h12 h23
      cases l2 with
      | nil => simp [charListLt] at h12
      | cons b bs =>
          cases l3 with
          | nil => simp [charListLt] at h23
          | cons c cs => simp [charListLt]
  | cons a as ih =>
      intro l2 l3 h12 h23
      cases l2 with
      | nil => simp [charListLt] at h12
      | cons b bs =>
          cases l3 with
          | nil => simp [charListLt] at h23
          | cons c cs =>
              rw [charListLt_cons] at h12 h23 ⊢
              rcases h12 with h | ⟨he1, h⟩
              · rcases h23 with h' | ⟨he2, _⟩
                · exact Or.inl (by omega)
                · exact Or.inl (by omega)
              · rcases h23 with h' | ⟨he2, h''⟩
                · exact Or.inl (by omega)
                · exact Or.inr ⟨by omega, ih bs cs h h''⟩

theorem char_toNat_inj {a b : Char} (h : a.toNat = b.toNat) : a = b :=
  Char.ext (UInt32.ext h)

theorem charListLt_conn :
    ∀ l1 l2 : List Char, charListLt l1 l2 = false → charListLt l2 l1 = false →
      l1 = l2 := by
  intro l1
  induction l1 with
  | nil =>
      intro l2 h12 _
      cases l2 with
      | nil => rfl
      | cons b bs => simp [charListLt] at h12
  | cons a as ih =>
      intro l2 h12 h21
      cases l2 with
      | nil => simp [charListLt] at h21
      | cons b bs =>
          have h12' : ¬ (a.toNat < b.toNat ∨ (a.toNat = b.toNat ∧ charListLt as bs = true)) := by
            rw [← charListLt_cons]; simp [h12]
          have h21' : ¬ (b.toNat < a.toNat ∨ (b.toNat = a.toNat ∧ charListLt bs as = true)) := by
            rw [← charListLt_cons]; simp [h21]
          push_neg at h12' h21'
          have he : a.toNat = b.toNat := by
            rcases h12' with ⟨h1, _⟩; rcases h21' with ⟨h2, _⟩; omega
          have h1 : charListLt as bs = false := by
            have := h12'.2 he; simpa using this
          have h2 : charListLt bs as = false := by
            have := h21'.2 he.symm; simpa using this
          rw [char_toNat_inj he, ih bs h1 h2]

theorem strLt_irrefl (a : String) : strLt a a = false := charListLt_irrefl _

theorem strLt_trans {a b c : String} (h1 : strLt a b = true) (h2 : strLt b c = true) :
    strLt a c = true := charListLt_trans _ _ _ h1 h2

theorem strLt_conn {a b : String} (h1 : strLt a b = false) (h2 : strLt b a = false) :
    a = b := string_ext (charListLt_conn _ _ h1 h2)

theorem strLe_trans {a b c : String} (h1 : strLe a b = true) (h2 : strLe b c = true) :
    strLe a c = true := by
  unfold strLe at *
  rcases Bool.or_eq_true_iff.mp h1 with h1' | h1'
  · rcases Bool.or_eq_true_iff.mp h2 with h2' | h2'
    · simp [strLt_trans h1' h2']
    · have : b = c := by simpa using h2'
      subst this; simp [h1']
  · have : a = b := by simpa using h1'
    subst this; exact h2

theorem strLe_total (a b : String) : strLe a b = true ∨ strLe b a = true := by
  by_cases h1 : strLt a b = true
  · exact Or.inl (by simp [strLe, h1])
  · by_cases h2 : strLt b a = true
    · exact Or.inr (by simp [strLe, h2])
    · have : a = b := strLt_conn (by simpa using h1) (by simpa using h2)
      subst this
      exact Or.inl (by simp [strLe])

theorem strLe_antisymm {a b : String} (h1 : strLe a b = true) (h2 : strLe b a = true) :
    a = b := by
  unfold strLe at h1 h2
  rcases Bool.or_eq_true_iff.mp h1 with h1' | h1'
  · rcases Bool.or_eq_true_iff.mp h2 with h2' | h2'
    · have := strLt_trans h1' h2'
      rw [strLt_irrefl] at this
      exact absurd this (by simp)
    · have : b = a := by simpa using h2'
      exact this.symm
  · simpa using h1'

theorem natLt_irrefl (a : Nat) : natLt a a = false := by simp [natLt]

theorem natLt_trans {a b c : Nat} (h1 : natLt a b = true) (h2 : natLt b c = true) :
    natLt a c = true := by
  simp [natLt] at *; omega

theorem natLt_conn {a b : Nat} (h1 : natLt a b = false) (h2 : natLt b a = false) :
    a = b := by
  simp [natLt] at *; omega

section PairLeLemmas

variable {α β : Type} {ltA : α → α → Bool} {leB : β → β → Bool}

theorem pairLe_trans
    (hAtrans : ∀ a b c, ltA a b = true → ltA b c = true → ltA a c = true)
    (hAirr : ∀ a, ltA a a = false)
    (hAconn : ∀ a b, ltA a b = false → ltA b a = false → a = b)
    (hBtrans : ∀ a b c, leB a b = true → leB b c = true → leB a c = true) :
    ∀ p q r : α × β, pairLe ltA leB p q = true → pairLe ltA leB q r = true →
      pairLe ltA leB p r = true := by
  rintro ⟨p1, p2⟩ ⟨q1, q2⟩ ⟨r1, r2⟩ hpq hqr
  by_cases hpq1 : ltA p1 q1 = true
  · by_cases hqr1 : ltA q1 r1 = true
    · simp [pairLe, hAtrans _ _ _ hpq1 hqr1]
    · by_cases hrq1 : ltA r1 q1 = true
      · simp [pairLe, hqr1, hrq1] at hqr
      · have : q1 = r1 := hAconn _ _ (by simpa using hqr1) (by simpa using hrq1)
        subst this
        simp [pairLe, hpq1]
  · by_cases hqp1 : ltA q1 p1 = true
    · simp [pairLe, hpq1, hqp1] at hpq
    · have : p1 = q1 := hAconn _ _ (by simpa using hpq1) (by simpa using hqp1)
      subst this
      have hpq2 : leB p2 q2 = true := by
        simpa [pairLe, hAirr] using hpq
      by_cases hqr1 : ltA p1 r1 = true
      · simp [pairLe, hqr1]
      · by_cases hrq1 : ltA r1 p1 = true
        · simp [pairLe, hqr1, hrq1] at hqr
        · have : p1 = r1 := hAconn _ _ (by simpa using hqr1) (by simpa using hrq1)
          subst this
          have hqr2 : leB q2 r2 = true := by
            simpa [pairLe, hAirr] using hqr
          simp [pairLe, hAirr, hBtrans _ _ _ hpq2 hqr2]

theorem pairLe_total
    (hAirr : ∀ a, ltA a a = false)
    (hAconn : ∀ a b, ltA a b = false → ltA b a = false → a = b)
    (hBtotal : ∀ a b, leB a b = true ∨ leB b a = true) :
    ∀ p q : α × β, pairLe ltA leB p q = true ∨ pairLe ltA leB q p = true := by
  rintro ⟨p1, p2⟩ ⟨q1, q2⟩
  by_cases h1 : ltA p1 q1 = true
  · exact Or.inl (by simp [pairLe, h1])
  · by_cases h2 : ltA q1 p1 = true
    · exact Or.inr (by simp [pairLe, h2])
    · have : p1 = q1 := hAconn _ _ (by simpa using h1) (by simpa using h2)
      subst this
      rcases hBtotal p2 q2 with h | h
      · exact Or.inl (by simp [pairLe, hAirr, h])
      · exact Or.inr (by simp [pairLe, hAirr, h])

theorem pairLe_antisymm
    (hAtrans : ∀ a b c, ltA a b = true → ltA b c = true → ltA a c = true)
    (hAirr : ∀ a, ltA a a = false)
    (hAconn : ∀ a b, ltA a b = false → ltA b a = false → a = b)
    (hBanti : ∀ a b, leB a b = true → leB b a = true → a = b) :
    ∀ p q : α × β, pairLe ltA leB p q = true → pairLe ltA leB q p = true →
      p = q := by
  rintro ⟨p1, p2⟩ ⟨q1, q2⟩ hpq hqp
  by_cases h1 : ltA p1 q1 = true
  · by_cases h2 : ltA q1 p1 = true
    · have := hAtrans _ _ _ h1 h2
      rw [hAirr] at this
      exact absurd this (by simp)
    · simp [pairLe, h1, h2] at hqp
  · by_cases h2 : ltA q1 p1 = true
    · simp [pairLe, h1, h2] at hpq
    · have he : p1 = q1 := hAconn _ _ (by simpa using h1) (by simpa using h2)
      subst he
      have hpq2 : leB p2 q2 = true := by simpa [pairLe, hAirr] using hpq
      have hqp2 : leB q2 p2 = true := by simpa [pairLe, hAirr] using hqp
      rw [hBanti _ _ hpq2 hqp2]

end PairLeLemmas

/-! ## Stable sorting -/

theorem insertSorted_perm {α : Type} (le : α → α → Bool) (x : α) :
    ∀ l : List α, (insertSorted le x l).Perm (x :: l) := by
  intro l
  induction l with
  | nil => exact List.Perm.refl _
  | cons y ys ih =>
      rw [insertSorted]
      by_cases h : le y x = true
      · rw [if_pos h]
        exact (ih.cons y).trans (List.Perm.swap x y ys)
      · rw [if_neg h]

theorem pySorted_perm_aux {α : Type} (le : α → α → Bool) :
    ∀ (l acc : List α),
      (l.foldl (fun acc x => insertSorted le x acc) acc).Perm (acc ++ l) := by
  intro l
  induction l with
  | nil => intro acc; simp
  | cons x xs ih =>
      intro acc
      simp only [List.foldl_cons]
      refine (ih (insertSorted le x acc)).trans ?_
      refine (List.Perm.append_right xs (insertSorted_perm le x acc)).trans ?_
      exact List.perm_middle.symm

theorem pySorted_perm {α : Type} (le : α → α → Bool) (l : List α) :
    (pySorted le l).Perm l := by
  simpa using pySorted_perm_aux le l []

theorem insertSorted_pairwise {α : Type} {le : α → α → Bool}
    (htrans : ∀ a b c, le a b = true → le b c = true → le a c = true)
    (htotal : ∀ a b, le a b = true ∨ le b a = true) (x : α) :
    ∀ {l : List α}, l.Pairwise (fun a b => le a b = true) →
      (insertSorted le x l).Pairwise (fun a b => le a b = true) := by
  intro l
  induction l with
  | nil => intro _; simp [insertSorted]
  | cons y ys ih =>
      intro hp
      rcases List.pairwise_cons.mp hp with ⟨hy, hys⟩
      rw [insertSorted]
      by_cases h : le y x = true
      · rw [if_pos h]
        refine List.pairwise_cons.mpr ⟨?_, ih hys⟩
        intro z hz
        have : z ∈ x :: ys := (insertSorted_perm le x ys).mem_iff.mp hz
        rcases List.mem_cons.mp this with rfl | hzys
        · exact h
        · exact hy z hzys
      · rw [if_neg h]
        have hxy : le x y = true := by
          rcases htotal x y with h' | h'
          · exact h'
          · exact absurd h' h
        refine List.pairwise_cons.mpr ⟨?_, hp⟩
        intro z hz
        rcases List.mem_cons.mp hz with rfl | hzys
        · exact hxy
        · exact htrans x y z hxy (hy z hzys)

theorem pySorted_pairwise {α : Type} {le : α → α → Bool}
    (htrans : ∀ a b c, le a b = true → le b c = true → le a c = true)
    (htotal : ∀ a b, le a b = true ∨ le b a = true) (l : List α) :
    (pySorted le l).Pairwise (fun a b => le a b = true) := by
  suffices h : ∀ (l acc : List α),
      acc.Pairwise (fun a b => le a b = true) →
      (l.foldl (fun acc x => insertSorted le x acc) acc).Pairwise
        (fun a b => le a b = true) from h l [] (by simp)
  intro l
  induction l with
  | nil => intro acc hacc; simpa using hacc
  | cons x xs ih =>
      intro acc hacc
      simp only [List.foldl_cons]
      exact ih _ (insertSorted_pairwise htrans htotal x hacc)

/-! ## Comparator facts -/

theorem strLe_refl (a : String) : strLe a a = true := by simp [strLe]

theorem natLt_trans' : ∀ a b c : Nat,
    natLt a b = true → natLt b c = true → natLt a c = true :=
  fun _ _ _ h1 h2 => natLt_trans h1 h2

theorem natLt_conn' : ∀ a b : Nat,
    natLt a b = false → natLt b a = false → a = b :=
  fun _ _ h1 h2 => natLt_conn h1 h2

theorem strLt_trans' : ∀ a b c : String,
    strLt a b = true → strLt b c = true → strLt a c = true :=
  fun _ _ _ h1 h2 => strLt_trans h1 h2

theorem strLt_conn' : ∀ a b : String,
    strLt a b = false → strLt b a = false → a = b :=
  fun _ _ h1 h2 => strLt_conn h1 h2

theorem strLe_trans' : ∀ a b c : String,
    strLe a b = true → strLe b c = true → strLe a c = true :=
  fun _ _ _ h1 h2 => strLe_trans h1 h2

theorem strLe_antisymm' : ∀ a b : String,
    strLe a b = true → strLe b a = true → a = b :=
  fun _ _ h1 h2 => strLe_antisymm h1 h2

theorem merge_le_refl (a : AutoAttachment) : merge_le a a = true := by
  simp [merge_le, pairLe, natLt_irrefl, strLt_irrefl, strLe_refl]

theorem merge_le_trans :
    ∀ a b c, merge_le a b = true → merge_le b c = true → merge_le a c = true :=
  fun _ _ _ h1 h2 =>
    pairLe_trans natLt_trans' natLt_irrefl natLt_conn'
      (pairLe_trans strLt_trans' strLt_irrefl
        strLt_conn' strLe_trans') _ _ _ h1 h2

theorem merge_le_total :
    ∀ a b, merge_le a b = true ∨ merge_le b a = true :=
  fun a b =>
    pairLe_total natLt_irrefl natLt_conn'
      (pairLe_total strLt_irrefl strLt_conn' strLe_total)
      (merge_key a) (merge_key b)

theorem merge_le_key_eq {a b : AutoAttachment}
    (h1 : merge_le a b = true) (h2 : merge_le b a = true) :
    merge_key a = merge_key b :=
  pairLe_antisymm natLt_trans' natLt_irrefl natLt_conn'
    (pairLe_antisymm strLt_trans' strLt_irrefl
      strLt_conn' strLe_antisymm')
    (merge_key a) (merge_key b) h1 h2

theorem rename_le_refl (a : AutoAttachment) : rename_le a a = true := by
  simp [rename_le, pairLe, strLt_irrefl, strLe_refl]

theorem rename_le_trans :
    ∀ a b c, rename_le a b = true → rename_le b c = true → rename_le a c = true :=
  fun _ _ _ h1 h2 =>
    pairLe_trans strLt_trans' strLt_irrefl strLt_conn'
      (pairLe_trans strLt_trans' strLt_irrefl strLt_conn'
        (pairLe_trans strLt_trans' strLt_irrefl strLt_conn'
          (pairLe_trans strLt_trans' strLt_irrefl strLt_conn'
            strLe_trans'))) _ _ _ h1 h2

theorem rename_le_total :
    ∀ a b, rename_le a b = true ∨ rename_le b a = true :=
  fun a b =>
    pairLe_total strLt_irrefl strLt_conn'
      (pairLe_total strLt_irrefl strLt_conn'
        (pairLe_total strLt_irrefl strLt_conn'
          (pairLe_total strLt_irrefl strLt_conn' strLe_total)))
      (rename_key a) (rename_key b)

theorem rename_le_key_eq {a b : AutoAttachment}
    (h1 : rename_le a b = true) (h2 : rename_le b a = true) :
    rename_key a = rename_key b :=
  pairLe_antisymm strLt_trans' strLt_irrefl strLt_conn'
    (pairLe_antisymm strLt_trans' strLt_irrefl strLt_conn'
      (pairLe_antisymm strLt_trans' strLt_irrefl strLt_conn'
        (pairLe_antisymm strLt_trans' strLt_irrefl strLt_conn'
          strLe_antisymm')))
    (rename_key a) (rename_key b) h1 h2

/-! ## Association lists -/

theorem assocLookup_eq_none {κ α : Type} [DecidableEq κ] :
    ∀ (kvs : List (κ × α)) (k : κ),
      assocLookup kvs k = none ↔ k ∉ kvs.map Prod.fst := by
  intro kvs k
  induction kvs with
  | nil => simp [assocLookup]
  | cons p rest ih =>
      rw [assocLookup]
      by_cases h : p.1 = k
      · simp [h]
      · rw [if_neg h, ih]
        simp only [List.map_cons, List.mem_cons]
        constructor
        · intro hk
          rintro (he | hm)
          · exact h he.symm
          · exact hk hm
        · intro hk hm
          exact hk (Or.inr hm)

theorem assocLookup_some_mem {κ α : Type} [DecidableEq κ] :
    ∀ (kvs : List (κ × α)) (k : κ) (v : α),
      assocLookup kvs k = some v → (k, v) ∈ kvs := by
  intro kvs k v
  induction kvs with
  | nil => intro h; cases h
  | cons p rest ih =>
      obtain ⟨k1, v1⟩ := p
      rw [assocLookup]
      by_cases h : k1 = k
      · rw [if_pos h]
        intro hv
        cases hv
        subst h
        exact List.mem_cons_self _ _
      · rw [if_neg h]
        intro hv
        exact List.mem_cons_of_mem _ (ih hv)

theorem assocLookup_of_mem_nodup {κ α : Type} [DecidableEq κ] :
    ∀ (kvs : List (κ × α)), (kvs.map Prod.fst).Nodup →
      ∀ kv ∈ kvs, assocLookup kvs kv.1 = some kv.2 := by
  intro kvs
  induction kvs with
  | nil => intro _ kv h; cases h
  | cons p rest ih =>
      intro hnd kv hmem
      rcases List.pairwise_cons.mp hnd with ⟨hp, hrest⟩
      rcases List.mem_cons.mp hmem with rfl | hmem'
      · rw [assocLookup, if_pos rfl]
      · rw [assocLookup]
        have hne : p.1 ≠ kv.1 := by
          intro he
          exact hp kv.1 (List.mem_map.mpr ⟨kv, hmem', rfl⟩) he
        rw [if_neg hne]
        exact ih hrest kv hmem'

/-! ## Grouping by interface name (`_merge_attachments`) -/

theorem addToGroups_lookup :
    ∀ (groups : List (String × List AutoAttachment)) (a : AutoAttachment)
      (k : String),
      assocLookup (addToGroups groups a) k =
        if k = a.interface_name then
          some ((assocLookup groups k).getD [] ++ [a])
        else assocLookup groups k := by
  intro groups a
  induction groups with
  | nil =>
      intro k
      by_cases h : k = a.interface_name
      · rw [if_pos h]
        simp [addToGroups, assocLookup, h]
      · rw [if_neg h]
        simp [addToGroups, assocLookup, Ne.symm h]
  | cons g gs ih =>
      intro k
      obtain ⟨gk, gl⟩ := g
      rw [addToGroups]
      by_cases h1 : gk = a.interface_name
      · rw [if_pos h1]
        by_cases h2 : k = a.interface_name
        · have he : gk = k := h1.trans h2.symm
          rw [if_pos h2, assocLookup, if_pos he, assocLookup, if_pos he]
          rfl
        · have hne : ¬ gk = k := fun hh => h2 (by rw [← hh]; exact h1)
          rw [if_neg h2, assocLookup, if_neg hne, assocLookup, if_neg hne]
      · rw [if_neg h1]
        rw [assocLookup]
        by_cases h3 : gk = k
        · by_cases h2 : k = a.interface_name
          · exact absurd (h3.trans h2) h1
          · rw [if_pos h3, if_neg h2, assocLookup, if_pos h3]
        · rw [if_neg h3, ih k]
          by_cases h2 : k = a.interface_name
          · rw [if_pos h2, if_pos h2, assocLookup, if_neg h3]
          · rw [if_neg h2, if_neg h2, assocLookup, if_neg h3]

theorem addToGroups_keys :
    ∀ (groups : List (String × List AutoAttachment)) (a : AutoAttachment),
      (addToGroups groups a).map Prod.fst =
        if a.interface_name ∈ groups.map Prod.fst then groups.map Prod.fst
        else groups.map Prod.fst ++ [a.interface_name] := by
  intro groups a
  induction groups with
  | nil => simp [addToGroups]
  | cons g gs ih =>
      obtain ⟨gk, gl⟩ := g
      rw [addToGroups]
      by_cases h1 : gk = a.interface_name
      · rw [if_pos h1]
        have : a.interface_name ∈ ((gk, gl) :: gs).map Prod.fst := by
          simp [h1.symm]
        rw [if_pos this]
        simp
      · rw [if_neg h1]
        simp only [List.map_cons, List.mem_cons]
        by_cases h2 : a.interface_name ∈ gs.map Prod.fst
        · rw [ih, if_pos h2, if_pos (Or.inr h2)]
        · rw [ih, if_neg h2, if_neg (by
            rintro (he | hm)
            · exact h1 he.symm
            · exact h2 hm)]
          simp

theorem groupBy_go_keys_nodup :
    ∀ (l : List AutoAttachment) (acc : List (String × List AutoAttachment)),
      (acc.map Prod.fst).Nodup → ((l.foldl addToGroups acc).map Prod.fst).Nodup := by
  intro l
  induction l with
  | nil => intro acc h; simpa using h
  | cons a xs ih =>
      intro acc h
      simp only [List.foldl_cons]
      refine ih (addToGroups acc a) ?_
      rw [addToGroups_keys]
      by_cases hm : a.interface_name ∈ acc.map Prod.fst
      · rw [if_pos hm]; exact h
      · rw [if_neg hm]
        simp [List.nodup_append, h, hm]

theorem groupByInterface_keys_nodup (atts : List AutoAttachment) :
    ((groupByInterface atts).map Prod.fst).Nodup :=
  groupBy_go_keys_nodup atts [] (by simp)

theorem groupBy_go_lookup :
    ∀ (l : List AutoAttachment) (acc : List (String × List AutoAttachment))
      (k : String),
      assocLookup (l.foldl addToGroups acc) k =
        match assocLookup acc k with
        | some g => some (g ++ l.filter (fun x => x.interface_name = k))
        | none =>
            if l.any (fun x => x.interface_name = k) then
              some (l.filter (fun x => x.interface_name = k))
            else none := by
  intro l
  induction l with
  | nil =>
      intro acc k
      cases h : assocLookup acc k <;> simp [h]
  | cons a xs ih =>
      intro acc k
      simp only [List.foldl_cons]
      rw [ih (addToGroups acc a) k, addToGroups_lookup]
      by_cases h2 : k = a.interface_name
      · rw [if_pos h2]
        have hf : (a.interface_name = k) = True := eq_true h2.symm
        cases hacc : assocLookup acc k with
        | some g => simp [hacc, List.filter_cons, List.any_cons, hf]
        | none => simp [hacc, List.filter_cons, List.any_cons, hf]
      · rw [if_neg h2]
        have hf : (a.interface_name = k) = False :=
          eq_false (fun hh => h2 hh.symm)
        cases hacc : assocLookup acc k with
        | some g => simp [hacc, List.filter_cons, List.any_cons, hf]
        | none => simp [hacc, List.filter_cons, List.any_cons, hf]

theorem groupByInterface_lookup (atts : List AutoAttachment) (k : String) :
    assocLookup (groupByInterface atts) k =
      if atts.any (fun x => x.interface_name = k) then
        some (atts.filter (fun x => x.interface_name = k))
      else none := by
  have h := groupBy_go_lookup atts [] k
  simpa [groupByInterface] using h

theorem groupByInterface_mem {atts : List AutoAttachment}
    {grp : String × List AutoAttachment} (h : grp ∈ groupByInterface atts) :
    grp.2 = atts.filter (fun x => x.interface_name = grp.1) ∧ grp.2 ≠ [] := by
  have hlk : assocLookup (groupByInterface atts) grp.1 = some grp.2 :=
    assocLookup_of_mem_nodup _ (groupByInterface_keys_nodup atts) grp h
  rw [groupByInterface_lookup] at hlk
  by_cases hany : atts.any (fun x => x.interface_name = grp.1) = true
  · rw [if_pos hany] at hlk
    have heq : grp.2 = atts.filter (fun x => x.interface_name = grp.1) :=
      (Option.some.inj hlk).symm
    refine ⟨heq, ?_⟩
    rcases List.any_eq_true.mp hany with ⟨x, hx, hxk⟩
    intro hnil
    have : x ∈ grp.2 := heq ▸ List.mem_filter.mpr ⟨hx, hxk⟩
    rw [hnil] at this
    cases this
  · rw [if_neg hany] at hlk
    cases hlk

theorem groupByInterface_covers {atts : List AutoAttachment} {q : AutoAttachment}
    (hq : q ∈ atts) :
    ∃ grp ∈ groupByInterface atts, grp.1 = q.interface_name := by
  have hany : atts.any (fun x => x.interface_name = q.interface_name) = true :=
    List.any_eq_true.mpr ⟨q, hq, by simp⟩
  have hlk := groupByInterface_lookup atts q.interface_name
  rw [if_pos hany] at hlk
  exact ⟨(q.interface_name, atts.filter (fun x => x.interface_name = q.interface_name)),
    assocLookup_some_mem _ _ _ hlk, rfl⟩

theorem merge_foldl_snd :
    ∀ (groups : List (String × List AutoAttachment))
      (acc : List (String × Json) × List AutoAttachment),
      (groups.foldl merge_step acc).2 =
        acc.2 ++ groups.filterMap (fun grp => (pySorted merge_le grp.2).head?) := by
  intro groups
  induction groups with
  | nil => intro acc; simp
  | cons grp rest ih =>
      intro acc
      simp only [List.foldl_cons]
      rw [ih (merge_step acc grp), List.filterMap_cons]
      cases hs : pySorted merge_le grp.2 with
      | nil =>
          have hstep : merge_step acc grp = acc := by
            unfold merge_step
            rw [hs]
          rw [hstep]
          simp
      | cons p t =>
          have hstep : (merge_step acc grp).2 = acc.2 ++ [p] := by
            unfold merge_step
            rw [hs]
          rw [hstep]
          simp

theorem merge_attachments_snd (sim_nodes : List (String × Json))
    (atts : List AutoAttachment) :
    (merge_attachments sim_nodes atts).2 =
      (groupByInterface atts).filterMap
        (fun grp => (pySorted merge_le grp.2).head?) := by
  unfold merge_attachments
  rw [merge_foldl_snd]
  simp

theorem pySorted_head_le {l : List AutoAttachment} {p : AutoAttachment}
    (hh : (pySorted merge_le l).head? = some p) :
    p ∈ l ∧ ∀ q ∈ l, merge_le p q = true := by
  cases hs : pySorted merge_le l with
  | nil => rw [hs] at hh; cases hh
  | cons p' t =>
      rw [hs] at hh
      cases hh
      have hperm := pySorted_perm merge_le l
      rw [hs] at hperm
      have hmem : p ∈ l := hperm.mem_iff.mp (List.mem_cons_self _ _)
      refine ⟨hmem, fun q hq => ?_⟩
      have hq' : q ∈ p :: t := hperm.mem_iff.mpr hq
      rcases List.mem_cons.mp hq' with rfl | hqt
      · exact merge_le_refl q
      · have hpw := pySorted_pairwise merge_le_trans merge_le_total l
        rw [hs] at hpw
        exact (List.pairwise_cons.mp hpw).1 q hqt

/-- C2 (confirmed): merging keeps exactly one attachment per fabric interface
resource name — a member of the group that is minimal under the Python sort
key (`merge_le`) — and in the two-attachment instance where exactly one
carries an allocated IP, that one is primary regardless of input order, the
other being discarded. -/
theorem c2_merge_primary :
    ∀ (ns : List (String × Json)) (atts : List AutoAttachment),
      (∀ p ∈ (merge_attachments ns atts).2,
        p ∈ atts ∧
          ∀ q ∈ atts, q.interface_name = p.interface_name → merge_le p q = true) ∧
      ((merge_attachments ns atts).2.map AutoAttachment.interface_name).Nodup ∧
      (∀ q ∈ atts, ∃ p ∈ (merge_attachments ns atts).2,
        p.interface_name = q.interface_name) ∧
      (∀ a b : AutoAttachment, a.interface_name = b.interface_name →
        truthyStrOpt a.ip_address = true → truthyStrOpt b.ip_address = false →
        (merge_attachments ns [a, b]).2 = [a] ∧
        (merge_attachments ns [b, a]).2 = [a]) := by
  intro ns atts
  have hmember : ∀ p ∈ (merge_attachments ns atts).2,
      p ∈ atts ∧
        ∀ q ∈ atts, q.interface_name = p.interface_name → merge_le p q = true := by
    intro p hp
    rw [merge_attachments_snd] at hp
    rcases List.mem_filterMap.mp hp with ⟨grp, hgrp, hhead⟩
    rcases groupByInterface_mem hgrp with ⟨hfilter, _⟩
    rcases pySorted_head_le hhead with ⟨hmem, hmin⟩
    have hpin : p ∈ atts := by
      have := hfilter ▸ hmem
      exact (List.mem_filter.mp this).1
    have hpk : p.interface_name = grp.1 := by
      have := hfilter ▸ hmem
      simpa using (List.mem_filter.mp this).2
    refine ⟨hpin, fun q hq hqk => ?_⟩
    refine hmin q ?_
    rw [hfilter]
    exact List.mem_filter.mpr ⟨hq, by simp [hqk, hpk]⟩
  refine ⟨hmember, ?_, ?_, ?_⟩
  · rw [merge_attachments_snd]
    have : ∀ (groups : List (String × List AutoAttachment)),
        (∀ grp ∈ groups, ∀ x ∈ grp.2, x.interface_name = grp.1) →
        (∀ grp ∈ groups, grp.2 ≠ []) →
        (groups.filterMap (fun grp => (pySorted merge_le grp.2).head?)).map
          AutoAttachment.interface_name = groups.map Prod.fst := by
      intro groups
      induction groups with
      | nil => intro _ _; simp
      | cons grp rest ih =>
          intro hiface hne
          have hgne : pySorted merge_le grp.2 ≠ [] := by
            intro hnil
            have := (pySorted_perm merge_le grp.2).length_eq
            rw [hnil] at this
            exact hne grp (List.mem_cons_self _ _)
              (List.length_eq_zero.mp this.symm)
          cases hs : pySorted merge_le grp.2 with
          | nil => exact absurd hs hgne
          | cons p t =>
              rw [List.filterMap_cons]
              have hpmem : p ∈ grp.2 := by
                have hperm := pySorted_perm merge_le grp.2
                rw [hs] at hperm
                exact hperm.mem_iff.mp (List.mem_cons_self _ _)
              rw [hs]
              simp only [List.head?_cons, List.map_cons]
              rw [ih (fun g hg => hiface g (List.mem_cons_of_mem _ hg))
                  (fun g hg => hne g (List.mem_cons_of_mem _ hg))]
              rw [hiface grp (List.mem_cons_self _ _) p hpmem]
    rw [this (groupByInterface atts)
      (fun grp hgrp x hx => by
        have hf := (groupByInterface_mem hgrp).1
        have := hf ▸ hx
        simpa using (List.mem_filter.mp this).2)
      (fun grp hgrp => (groupByInterface_mem hgrp).2)]
    exact groupByInterface_keys_nodup atts
  · intro q hq
    rcases groupByInterface_covers hq with ⟨grp, hgrp, hk⟩
    rcases groupByInterface_mem hgrp with ⟨hfilter, hne⟩
    have hsne : pySorted merge_le grp.2 ≠ [] := by
      intro hnil
      have := (pySorted_perm merge_le grp.2).length_eq
      rw [hnil] at this
      exact hne (List.length_eq_zero.mp this.symm)
    cases hs : pySorted merge_le grp.2 with
    | nil => exact absurd hs hsne
    | cons p t =>
        refine ⟨p, ?_, ?_⟩
        · rw [merge_attachments_snd]
          refine List.mem_filterMap.mpr ⟨grp, hgrp, ?_⟩
          rw [hs]
          rfl
        · have hperm := pySorted_perm merge_le grp.2
          rw [hs] at hperm
          have hpmem : p ∈ grp.2 := hperm.mem_iff.mp (List.mem_cons_self _ _)
          have := hfilter ▸ hpmem
          have hpk : p.interface_name = grp.1 := by
            simpa using (List.mem_filter.mp this).2
          rw [hpk, hk]
  · intro a b hif hIPa hIPb
    have hlab : merge_le a b = true := by
      simp [merge_le, merge_key, pairLe, natLt, hIPa, hIPb]
    have hlba : merge_le b a = false := by
      simp [merge_le, merge_key, pairLe, natLt, hIPa, hIPb]
    constructor
    · rw [merge_attachments_snd]
      have hg : groupByInterface [a, b] = [(a.interface_name, [a, b])] := by
        simp [groupByInterface, addToGroups, hif]
      rw [hg]
      simp only [List.filterMap_cons, List.filterMap_nil]
      have : pySorted merge_le [a, b] = [a, b] := by
        simp [pySorted, insertSorted, hlab]
      rw [this]
      rfl
    · rw [merge_attachments_snd]
      have hg : groupByInterface [b, a] = [(b.interface_name, [b, a])] := by
        simp [groupByInterface, addToGroups, hif]
      rw [hg]
      simp only [List.filterMap_cons, List.filterMap_nil]
      have : pySorted merge_le [b, a] = [a, b] := by
        simp [pySorted, insertSorted, hlba]
      rw [this]
      rfl

/-- Witness for `c2_merge_primary` on two concrete attachments sharing one
interface, one with an IP. -/
theorem c2_merge_primary_witness :
    (merge_attachments [] [c2a, c2b]).2 = [c2a] ∧
    (merge_attachments [] [c2b, c2a]).2 = [c2a] ∧
    (c2a ∈ [c2b, c2a] ∧
      ∀ q ∈ [c2b, c2a], q.interface_name = c2a.interface_name →
        merge_le c2a q = true) := by
  have h := c2_merge_primary [] [c2b, c2a]
  obtain ⟨hm1, hm2⟩ := h.2.2.2 c2a c2b rfl (by decide) (by decide)
  refine ⟨hm1, hm2, ?_⟩
  exact h.1 c2a (by rw [hm2]; exact List.mem_cons_self _ _)

/-! ## Rename order-independence (claim C1) -/

/-- C1 (corrected): the *rename step* is order-independent — for a fixed
sim-node dict, renaming any two permutations of a merged attachment list with
pairwise-distinct interface resource names gives identical renamed nodes and
attachments, because it sorts by the canonical key first.  Full-pipeline order
independence fails (see the counterexample): when two VirtualNetworks reuse a
VLAN label on the same interface, the `(vlan name, interface)` dedup keeps a
different definition depending on input order, changing the canonical keys and
hence the `server1, server2, …` assignment. -/
theorem c1_rename_order_independent :
    ∀ (sim_nodes : List (String × Json)) (l1 l2 : List AutoAttachment),
      l1.Perm l2 →
      (l1.map AutoAttachment.interface_name).Nodup →
      rename_servers sim_nodes l1 = rename_servers sim_nodes l2 := by
  intro ns l1 l2 hperm hnd
  have hanti : ∀ a b, a ∈ pySorted rename_le l1 → b ∈ pySorted rename_le l2 →
      rename_le a b = true → rename_le b a = true → a = b := by
    intro a b ha hb hab hba
    have hkey := rename_le_key_eq hab hba
    have ha1 : a ∈ l1 := (pySorted_perm rename_le l1).mem_iff.mp ha
    have hb1 : b ∈ l1 :=
      hperm.symm.subset ((pySorted_perm rename_le l2).mem_iff.mp hb)
    have hif : a.interface_name = b.interface_name :=
      congrArg (fun k => k.2.2.2.2) hkey
    exact List.inj_on_of_nodup_map hnd ha1 hb1 hif
  have hsorted : pySorted rename_le l1 = pySorted rename_le l2 :=
    List.Perm.eq_of_sorted hanti
      (pySorted_pairwise rename_le_trans rename_le_total l1)
      (pySorted_pairwise rename_le_trans rename_le_total l2)
      ((pySorted_perm rename_le l1).trans
        (hperm.trans (pySorted_perm rename_le l2).symm))
  unfold rename_servers
  rw [hsorted]

/-- C1 counterexample: permuting the VirtualNetwork input order changes the
final `server1, server2, …` assignment.  `vna` and `vnc` both label VLAN `v`
on interface `i1`; first-seen-wins dedup keeps whichever comes first, and the
surviving virtual-network name changes the canonical sort, swapping which
interface becomes `server1`. -/
theorem c1_counterexample :
    [c1VnA, c1VnC, c1VnB].Perm [c1VnC, c1VnA, c1VnB] ∧
    c1Assign [c1VnA, c1VnC, c1VnB] = [("i1", "server1"), ("j1", "server2")] ∧
    c1Assign [c1VnC, c1VnA, c1VnB] = [("j1", "server1"), ("i1", "server2")] :=
  ⟨List.Perm.swap c1VnC c1VnA [c1VnB], rfl, rfl⟩

/-- Witness for `c1_rename_order_independent` on a two-element merged list. -/
theorem c1_rename_witness :
    rename_servers [] [c1x, c1y] = rename_servers [] [c1y, c1x] :=
  c1_rename_order_independent [] [c1x, c1y] [c1y, c1x]
    (List.Perm.swap c1y c1x []) (by decide)

/-! ## Selector matching (claim C7) -/

theorem dictInsert_fresh {kvs : List (String × Json)} {k : String} (v : Json)
    (h : k ∉ kvs.map Prod.fst) : Json.dictInsert kvs k v = kvs ++ [(k, v)] := by
  induction kvs with
  | nil => rfl
  | cons p rest ih =>
      simp only [List.map_cons, List.mem_cons] at h
      push_neg at h
      show Json.dictInsert (p :: rest) k v = _
      rw [show Json.dictInsert (p :: rest) k v =
        (if p.1 = k then (k, v) :: rest else p :: Json.dictInsert rest k v) from rfl]
      rw [if_neg (fun hh => h.1 hh.symm), ih h.2]
      rfl

/-- The predicate `_matching_interfaces` effectively filters with. -/
def matchingPred (selectors : List String) (ni : String × Json) : Bool :=
  ni.1 ≠ "" && selectors.any (fun sel => matches_selector ni.2 sel)

theorem matching_interfaces_go_eq_filter (selectors : List String) :
    ∀ (ifs acc : List (String × Json)),
      (acc.map Prod.fst ++ ifs.map Prod.fst).Nodup →
      List.foldl
        (fun acc nmitf =>
          if nmitf.1 = "" then acc
          else if selectors.any (fun sel => matches_selector nmitf.2 sel) then
            Json.dictInsert acc nmitf.1 nmitf.2
          else acc)
        acc ifs
        = acc ++ ifs.filter (matchingPred selectors) := by
  intro ifs
  induction ifs with
  | nil => intro acc _; simp
  | cons p rest ih =>
      intro acc hnd
      have hnd' : (p.1 :: (acc.map Prod.fst ++ rest.map Prod.fst)).Nodup := by
        rw [← List.nodup_middle]
        simpa using hnd
      have hfresh : p.1 ∉ acc.map Prod.fst := by
        have := (List.nodup_cons.mp hnd').1
        intro hc; exact this (List.mem_append.mpr (Or.inl hc))
      have hndrest : (acc.map Prod.fst ++ rest.map Prod.fst).Nodup :=
        (List.nodup_cons.mp hnd').2
      simp only [List.foldl_cons]
      by_cases hname : p.1 = ""
      · rw [if_pos hname, ih acc hndrest]
        have : matchingPred selectors p = false := by
          simp [matchingPred, hname]
        simp [List.filter_cons, this]
      · rw [if_neg hname]
        by_cases hsel : selectors.any (fun sel => matches_selector p.2 sel) = true
        · rw [if_pos hsel, dictInsert_fresh p.2 hfresh]
          have hnd2 : ((acc ++ [(p.1, p.2)]).map Prod.fst ++ rest.map Prod.fst).Nodup := by
            simp only [List.map_append, List.map_cons, List.map_nil]
            rw [List.append_assoc]
            exact List.nodup_middle.mpr hnd'
          rw [ih (acc ++ [(p.1, p.2)]) hnd2]
          have : matchingPred selectors p = true := by
            simp [matchingPred, hname, hsel]
          simp [List.filter_cons, this]
        · rw [if_neg hsel, ih acc hndrest]
          have : matchingPred selectors p = false := by
            simp [matchingPred, hsel]
          simp [List.filter_cons, this]

theorem matching_interfaces_eq_filter (selectors : List String)
    (interfaces : List (String × Json))
    (hnd : (interfaces.map Prod.fst).Nodup) :
    matching_interfaces selectors interfaces =
      interfaces.filter (matchingPred selectors) := by
  have := matching_interfaces_go_eq_filter selectors interfaces [] (by simpa using hnd)
  simpa [matching_interfaces] using this

/-- C7 (corrected): selection over an interface dict with distinct names is
OR-selection over the selectors, restricted to interfaces whose resource name
is non-empty — an unnamed interface is never selected even when a selector
matches (see the counterexample) — and a selector whose key is empty after
stripping matches nothing. -/
theorem c7_selector_or_semantics :
    (∀ (selectors : List String) (interfaces : List (String × Json))
        (name : String),
      (interfaces.map Prod.fst).Nodup →
      (name ∈ (matching_interfaces selectors interfaces).map Prod.fst ↔
        name ≠ "" ∧ ∃ itf, (name, itf) ∈ interfaces ∧
          ∃ sel ∈ selectors, matches_selector itf sel = true)) ∧
    (∀ (interface : Json) (sel : String),
      (parse_selector sel).1 = "" → matches_selector interface sel = false) := by
  constructor
  · intro selectors interfaces name hnd
    rw [matching_interfaces_eq_filter selectors interfaces hnd]
    constructor
    · intro h
      rcases List.mem_map.mp h with ⟨ni, hmem, hfst⟩
      rcases List.mem_filter.mp hmem with ⟨hin, hpred⟩
      rcases Bool.and_eq_true_iff.mp hpred with ⟨hne, hany⟩
      subst hfst
      refine ⟨by simpa using hne, ni.2, hin, ?_⟩
      exact List.any_eq_true.mp hany
    · rintro ⟨hne, itf, hin, sel, hsel, hmatch⟩
      refine List.mem_map.mpr ⟨(name, itf), List.mem_filter.mpr ⟨hin, ?_⟩, rfl⟩
      simp only [matchingPred, Bool.and_eq_true_iff]
      exact ⟨by simpa using hne, List.any_eq_true.mpr ⟨sel, hsel, hmatch⟩⟩
  · intro interface sel hkey
    unfold matches_selector
    rw [hkey]
    simp

/-- C7 counterexample: an Interface resource with empty `metadata.name` whose
labels satisfy the selector is nevertheless not selected, so "selected iff at
least one selector matches" fails as stated. -/
theorem c7_counterexample :
    matches_selector c7UnnamedIface "k" = true ∧
    matching_interfaces ["k"] [("", c7UnnamedIface)] = [] := by
  exact ⟨rfl, rfl⟩

/-- Witness for `c7_selector_or_semantics` at a concrete dict and selector. -/
theorem c7_selector_witness :
    ("a" ∈ (matching_interfaces ["k"] [("a", c7NamedIface)]).map Prod.fst ↔
      "a" ≠ "" ∧ ∃ itf, ("a", itf) ∈ [("a", c7NamedIface)] ∧
        ∃ sel ∈ ["k"], matches_selector itf sel = true) ∧
    matches_selector c7NamedIface " = v" = false :=
  ⟨c7_selector_or_semantics.1 ["k"] [("a", c7NamedIface)] "a" (by simp),
   c7_selector_or_semantics.2 c7NamedIface " = v" rfl⟩

/-! ## Effective VLAN / interface resolution (claim C9) -/

theorem first_attachment_vlan_eq_find :
    ∀ atts : List AttachmentSpec,
      first_attachment_vlan atts =
        (atts.find? (fun a => truthyStrOpt a.vlan)).bind AttachmentSpec.vlan := by
  intro atts
  induction atts with
  | nil => rfl
  | cons a rest ih =>
      rw [first_attachment_vlan, List.find?_cons]
      cases htv : truthyStrOpt a.vlan <;> simp [htv, ih]

theorem first_attachment_interface_eq_head {atts : List AttachmentSpec}
    (h : ∀ a ∈ atts, a.sim_interface ≠ "") :
    first_attachment_interface atts = atts.head?.map AttachmentSpec.sim_interface := by
  cases atts with
  | nil => rfl
  | cons a rest =>
      have := h a (List.mem_cons_self _ _)
      rw [first_attachment_interface]
      simp [this]

/-- C9 (corrected): the effective VLAN is the node's own VLAN when truthy,
otherwise the VLAN of the **first attachment that has one** — not of the first
attachment outright (see the counterexample).  The effective interface is the
node's own interface when truthy, otherwise the first attachment's simulated
interface (these coincide for validated attachments, whose `sim_interface` is
never empty). -/
theorem c9_effective_vlan_interface :
    ∀ (node : SimNodeSpec) (atts : List AttachmentSpec),
      (select_vlan node atts =
        if truthyStrOpt node.vlan then node.vlan
        else (atts.find? (fun a => truthyStrOpt a.vlan)).bind AttachmentSpec.vlan) ∧
      ((∀ a ∈ atts, a.sim_interface ≠ "") →
        select_interface node atts =
          if truthyStrOpt node.interface then node.interface
          else atts.head?.map AttachmentSpec.sim_interface) := by
  intro node atts
  constructor
  · unfold select_vlan
    by_cases h : truthyStrOpt node.vlan = true
    · simp [h]
    · simp only [Bool.not_eq_true] at h
      simp [h, first_attachment_vlan_eq_find]
  · intro hall
    unfold select_interface
    by_cases h : truthyStrOpt node.interface = true
    · simp [h]
    · simp only [Bool.not_eq_true] at h
      simp [h, first_attachment_interface_eq_head hall]

/-- C9 counterexample: ordering the attachments so the first has no VLAN, the
rendered effective VLAN is the second attachment's `10`, not the first
attachment's (absent) VLAN as the claim states. -/
theorem c9_counterexample :
    select_vlan c9Node [c9Att1, c9Att2] = some "10" ∧
    [c9Att1, c9Att2].head?.bind AttachmentSpec.vlan = none := by
  exact ⟨rfl, rfl⟩

/-- Witness for `c9_effective_vlan_interface` at a concrete node and
attachment list. -/
theorem c9_effective_witness :
    (select_vlan c9Node [c9Att1, c9Att2] =
      if truthyStrOpt c9Node.vlan then c9Node.vlan
      else ([c9Att1, c9Att2].find? (fun a => truthyStrOpt a.vlan)).bind
        AttachmentSpec.vlan) ∧
    select_interface c9Node [c9Att1, c9Att2] =
      (if truthyStrOpt c9Node.interface then c9Node.interface
       else [c9Att1, c9Att2].head?.map AttachmentSpec.sim_interface) :=
  ⟨(c9_effective_vlan_interface c9Node [c9Att1, c9Att2]).1,
   (c9_effective_vlan_interface c9Node [c9Att1, c9Att2]).2 (by decide)⟩

/-! ## Unknown simNode references (claim C8) -/

theorem parse_sim_nodes_ne_nil {ns : List Json}
    {nodes : List (String × SimNodeSpec)}
    (h : parse_sim_nodes ns = .ok nodes) : nodes ≠ [] := by
  unfold parse_sim_nodes at h
  cases hgo : parse_sim_nodes_go ns [] with
  | error e => rw [hgo] at h; cases h
  | ok nodes' =>
      rw [hgo] at h
      dsimp only at h
      by_cases he : nodes'.isEmpty = true
      · rw [if_pos he] at h; cases h
      · rw [if_neg he] at h
        cases h
        simpa [List.isEmpty_iff] using he

theorem parse_attachments_go_append_error
    (known : List (String × SimNodeSpec)) :
    ∀ (pre rest : List Json) (l : List AttachmentSpec) (e : String),
      parse_attachments_go known pre = .ok l →
      parse_attachments_go known rest = .error e →
      parse_attachments_go known (pre ++ rest) = .error e := by
  intro pre
  induction pre with
  | nil => intro rest l e _ hrest; simpa using hrest
  | cons entry pre' ih =>
      intro rest l e h hrest
      by_cases h1 : (!entry.isObj) = true
      · rw [parse_attachments_go, if_pos h1] at h; cases h
      · rw [parse_attachments_go, if_neg h1] at h
        rw [List.cons_append, parse_attachments_go, if_neg h1]
        cases hfn : strWithContent (entry.get "node") with
        | none => simp [hfn] at h
        | some fn =>
        cases hfi : strWithContent (entry.get "interface") with
        | none => simp [hfn, hfi] at h
        | some fi =>
        cases hsn : strWithContent (entry.get "simNode") with
        | none => simp [hfn, hfi, hsn] at h
        | some sn =>
        cases hsi : strWithContent
            (Json.pyOr (entry.get "simNodeInterface") (entry.get "interface")) with
        | none => simp [hfn, hfi, hsn, hsi] at h
        | some si =>
            simp only [hfn, hfi, hsn, hsi] at h ⊢
            by_cases hk : (assocLookup known sn).isSome = true
            · rw [if_pos hk] at h
              rw [if_pos hk]
              cases hgo : parse_attachments_go known pre' with
              | error e' => rw [hgo] at h; cases h
              | ok atts => rw [ih rest atts e hgo hrest]
            · rw [if_neg hk] at h; cases h

/-- C8 (confirmed): when validation reaches a topology entry whose four
fields are well-formed strings but whose `simNode` does not name any parsed
simNode, `parse_simulation_spec` raises the invalid-specification error that
names the unresolved reference and lists the known simNode names (sorted,
comma-joined); the entry is not dropped. -/
theorem c8_unknown_simnode
    (raw base : Json) (ns : List Json) (nodes : List (String × SimNodeSpec))
    (pre post : List Json) (entry : Json) (l : List AttachmentSpec)
    (fn fi si : String) (sn : String)
    (hbase : spec_base raw = .ok base)
    (hns : ensure_list (base.get "simNodes") "simNodes" = .ok ns)
    (hn : parse_sim_nodes ns = .ok nodes)
    (ht : ensure_list (base.get "topology") "topology" = .ok (pre ++ entry :: post))
    (hpre : parse_attachments_go nodes pre = .ok l)
    (hobj : entry.isObj = true)
    (hfn : strWithContent (entry.get "node") = some fn)
    (hfi : strWithContent (entry.get "interface") = some fi)
    (hsn : strWithContent (entry.get "simNode") = some sn)
    (hsi : strWithContent
      (Json.pyOr (entry.get "simNodeInterface") (entry.get "interface")) = some si)
    (hunknown : assocLookup nodes sn = none) :
    parse_simulation_spec raw =
      .error ("Topology entry references unknown simNode '" ++ sn ++
        "'. Available simNodes: " ++ joinKnownNames nodes) := by
  have hentry_err : parse_attachments_go nodes (entry :: post) =
      .error ("Topology entry references unknown simNode '" ++ sn ++
        "'. Available simNodes: " ++ joinKnownNames nodes) := by
    rw [parse_attachments_go, if_neg (by simp [hobj]), hfn, hfi, hsn, hsi]
    simp only
    rw [if_neg (by simp [hunknown])]
  have hgo : parse_attachments_go nodes (pre ++ entry :: post) =
      .error ("Topology entry references unknown simNode '" ++ sn ++
        "'. Available simNodes: " ++ joinKnownNames nodes) :=
    parse_attachments_go_append_error nodes pre (entry :: post) l _ hpre hentry_err
  unfold parse_simulation_spec
  simp only [hbase]
  unfold parse_from_base
  simp only [hns, ht, hn]
  unfold parse_attachments
  have hne : nodes.isEmpty = false := by
    simp [List.isEmpty_iff, parse_sim_nodes_ne_nil hn]
  simp only [hne, Bool.false_eq_true, if_false, hgo]

/-- Witness for `c8_unknown_simnode` on a one-node spec whose topology entry
references `ghost`. -/
theorem c8_unknown_simnode_witness :
    parse_simulation_spec c8Raw =
      .error ("Topology entry references unknown simNode '" ++ "ghost" ++
        "'. Available simNodes: " ++ joinKnownNames c8Nodes) :=
  c8_unknown_simnode c8Raw c8Raw
    [.obj [("name", .str "n1"), ("image", .str "img")]] c8Nodes
    [] [] (.obj [("node", .str "f"), ("interface", .str "e"),
      ("simNode", .str "ghost")]) []
    "f" "e" "e" "ghost" rfl rfl rfl rfl rfl rfl rfl rfl rfl rfl rfl

/-! ## The undocumented `spec`-wrapped input shape (claim C10) -/

/-- C10 (corrected): a mapping without `items` whose `spec` value is a mapping
is validated through that inner mapping (`base` is the inner mapping), and
this coincides with validating the inner mapping directly *provided* the inner
mapping itself has no `items` key and no mapping under `spec`; without that
proviso acceptance can differ (see the counterexample). -/
theorem c10_spec_wrapped_shape :
    ∀ (kvs : List (String × Json)) (inner : Json),
      Json.hasKey (.obj kvs) "items" = false →
      (Json.obj kvs).get "spec" = inner →
      inner.isObj = true →
      parse_simulation_spec (.obj kvs) = parse_from_base inner ∧
      (inner.hasKey "items" = false → (inner.get "spec").isObj = false →
        parse_simulation_spec (.obj kvs) = parse_simulation_spec inner) := by
  intro kvs inner hitems hspec hobj
  have hbase : spec_base (.obj kvs) = .ok inner := by
    unfold spec_base
    rw [hitems]
    simp only [Bool.false_eq_true, if_false, hspec, hobj, if_true]
  have h1 : parse_simulation_spec (.obj kvs) = parse_from_base inner := by
    unfold parse_simulation_spec
    rw [hbase]
  refine ⟨h1, fun hitems' hspec' => ?_⟩
  have hbase' : spec_base inner = .ok inner := by
    unfold spec_base
    rw [hitems']
    simp only [Bool.false_eq_true, if_false, hspec']
  rw [h1]
  unfold parse_simulation_spec
  rw [hbase']

/-- C10 counterexample: wrapping a `spec`-wrapped document once more changes
the outcome, so "accepted or rejected exactly as its inner spec mapping" fails
when the inner mapping itself carries a mapping under `spec`. -/
theorem c10_counterexample :
    parse_simulation_spec (Json.obj [("spec", c10Inner)]) =
      .error "At least one simNode must be provided" ∧
    (parse_simulation_spec c10Inner).isOk = true := by
  exact ⟨rfl, rfl⟩

/-! ## IP pool exhaustion (claim C5) -/

/-- C5 (corrected): a `/32` pool is empty, an exhausted pool yields `none`
rather than an error, and the collector then records the attachment with no
IP address and continues — but a `/31` pool is *not* empty: it holds exactly
one usable address (the non-gateway one), so "a `/31`-or-smaller pool yields
no address" fails (see the counterexample). -/
theorem c5_exhaustion_yields_none :
    (∀ addr : Nat, ip_allocator addr 32 = []) ∧
    (∀ addr : Nat, (ip_allocator addr 31).length = 1) ∧
    (∀ (store : List ((Nat × String) × List String)) (pid : Nat × String),
      assocLookup store pid = some [] → store_next store pid = (none, store)) ∧
    (∀ (d : VlanDefinition) (iname : String) (itf : Json) (st : CollectState)
       (pid : Nat × String) (n i : String),
      d.ip_pool = some pid →
      assocLookup st.store pid = some [] →
      (d.vlan_name, iname) ∉ st.seen_pairs →
      extract_fabric_endpoint itf = (some n, some i) →
      n ≠ "" → i ≠ "" →
      (process_match d iname itf st).attachments =
        st.attachments ++
          [⟨d.virtual_network, d.vlan_name, d.vlan_id, iname, n, i,
            generate_sim_name iname, none⟩]) := by
  refine ⟨?_, ?_, ?_, ?_⟩
  · intro addr
    unfold ip_allocator
    simp [Nat.mod_one]
  · intro addr
    unfold ip_allocator
    simp only [show (32 : Nat) - 31 = 1 from rfl, pow_one, if_pos rfl]
    rcases Nat.mod_two_eq_zero_or_one addr with h | h
    · have he : addr - addr % 2 = addr := by omega
      rw [he]
      have h2 : addr + 1 ≠ addr := by omega
      simp [List.filter_cons, h2]
    · have he : addr - addr % 2 + 1 = addr := by omega
      have h1 : addr - addr % 2 ≠ addr := by omega
      simp [List.filter_cons, h1, he]
  · intro store pid h
    unfold store_next
    rw [h]
  · intro d iname itf st pid n i hpid hpool hseen hext hn hi
    have hnext : store_next st.store pid = (none, st.store) := by
      unfold store_next
      rw [hpool]
    unfold process_match
    rw [if_neg hseen, hext]
    simp only [hpid, hnext]
    simp [hn, hi]

/-- C5 counterexample: the pool over the `/31` subnet with gateway `10.0.0.0`
yields the address `10.0.0.1/31` — allocation from a `/31` pool does *not*
yield "no address available". -/
theorem c5_counterexample :
    ip_allocator 167772160 31 = ["10.0.0.1/31"] ∧
    store_next [((0, "bd"), ip_allocator 167772160 31)] (0, "bd") =
      (some "10.0.0.1/31", [((0, "bd"), [])]) := by
  exact ⟨rfl, rfl⟩

/-- Witness for `c5_exhaustion_yields_none` on a concrete exhausted pool. -/
theorem c5_exhaustion_witness :
    ip_allocator 7 32 = [] ∧
    (ip_allocator 167772160 31).length = 1 ∧
    store_next [((0, "bd"), [])] (0, "bd") = (none, [((0, "bd"), [])]) ∧
    (process_match ⟨"vn1", "v1", some "7", ["s1"], some (0, "bd")⟩ "i1"
        (c6Iface "i1" "n1" "s1") ⟨[], [], [], [((0, "bd"), [])]⟩).attachments =
      [] ++ [⟨"vn1", "v1", some "7", "i1", "n1", "p1", "i1", none⟩] :=
  ⟨c5_exhaustion_yields_none.1 7,
   c5_exhaustion_yields_none.2.1 167772160,
   c5_exhaustion_yields_none.2.2.1 [((0, "bd"), [])] (0, "bd") rfl,
   c5_exhaustion_yields_none.2.2.2 ⟨"vn1", "v1", some "7", ["s1"], some (0, "bd")⟩
     "i1" (c6Iface "i1" "n1" "s1") ⟨[], [], [], [((0, "bd"), [])]⟩ (0, "bd")
     "n1" "p1" rfl rfl (by simp) rfl (by simp) (by simp)⟩

/-! ## IP allocator ordering and bounds (claim C4) -/

/-- C4 (confirmed): the allocator yields host addresses of the subnet in
strictly ascending numeric order, formatted `address/prefixlen`, never the
gateway and never outside the subnet; for the `/24` with gateway `10.0.0.254`
the first yield is `10.0.0.1/24`. -/
theorem c4_ip_allocator :
    (∀ addr plen : Nat, plen ≤ 32 →
      ∃ hosts : List Nat,
        ip_allocator addr plen =
          hosts.map (fun h => ipv4Repr h ++ "/" ++ Nat.repr plen) ∧
        hosts.Chain' (· < ·) ∧
        (∀ h ∈ hosts, h ≠ addr ∧
          addr - addr % 2 ^ (32 - plen) ≤ h ∧
          h < addr - addr % 2 ^ (32 - plen) + 2 ^ (32 - plen))) ∧
    (ip_allocator 167772414 24).head? = some "10.0.0.1/24" := by
  constructor
  · intro addr plen hp
    by_cases h31 : plen = 31
    · subst h31
      have hb : (2 : Nat) ^ (32 - 31) = 2 := rfl
      refine ⟨[addr - addr % 2 ^ (32 - 31), addr - addr % 2 ^ (32 - 31) + 1].filter
        (fun h => h ≠ addr), rfl, ?_, ?_⟩
      · exact List.Chain'.sublist (by simp [List.chain'_cons]) (List.filter_sublist _)
      · intro h hmem
        rcases List.mem_filter.mp hmem with ⟨hmem', hne⟩
        refine ⟨by simpa using hne, ?_⟩
        rw [hb] at hmem' ⊢
        rcases List.mem_cons.mp hmem' with h' | h'
        · subst h'; omega
        · simp only [List.mem_singleton] at h'
          subst h'; omega
    · by_cases h32 : plen = 32
      · subst h32
        have hb : (2 : Nat) ^ (32 - 32) = 1 := rfl
        refine ⟨[addr - addr % 2 ^ (32 - 32)].filter (fun h => h ≠ addr),
          rfl, ?_, ?_⟩
        · exact List.Chain'.sublist (by simp) (List.filter_sublist _)
        · intro h hmem
          rcases List.mem_filter.mp hmem with ⟨hmem', hne⟩
          rcases List.mem_cons.mp hmem' with h' | h'
          · subst h'
            refine ⟨by simpa using hne, le_refl _, ?_⟩
            rw [hb]
            omega
          · simp at h'
      · have hlow : 32 - plen ≥ 2 := by omega
        have hblock : 0 < 2 ^ (32 - plen) := Nat.pos_pow_of_pos _ (by omega)
        have hmod : addr % 2 ^ (32 - plen) < 2 ^ (32 - plen) := Nat.mod_lt _ hblock
        refine ⟨((List.range (2 ^ (32 - plen) - 2)).map
            (fun i => addr - addr % 2 ^ (32 - plen) + 1 + i)).filter
            (fun h => h ≠ addr), ?_, ?_, ?_⟩
        · simp only [ip_allocator, if_neg h31, if_neg h32]
        · refine List.Chain'.sublist ?_ (List.filter_sublist _)
          rw [List.chain'_iff_pairwise]
          exact List.Pairwise.map _ (fun a b hab => by omega)
            (List.pairwise_lt_range _)
        · intro h hmem
          rcases List.mem_filter.mp hmem with ⟨hmem', hne⟩
          rcases List.mem_map.mp hmem' with ⟨i, hi, hh⟩
          rw [List.mem_range] at hi
          subst hh
          have hbig : 2 ^ (32 - plen) ≥ 4 := by
            calc (4 : Nat) = 2 ^ 2 := by norm_num
            _ ≤ 2 ^ (32 - plen) := Nat.pow_le_pow_right (by omega) hlow
          exact ⟨by simpa using hne, by omega, by omega⟩
  · rfl

/-- Witness for `c4_ip_allocator` at the gateway `10.0.0.254/24`. -/
theorem c4_ip_allocator_witness :
    ∃ hosts : List Nat,
      ip_allocator 167772414 24 =
        hosts.map (fun h => ipv4Repr h ++ "/" ++ Nat.repr 24) ∧
      hosts.Chain' (· < ·) ∧
      (∀ h ∈ hosts, h ≠ 167772414 ∧
        167772414 - 167772414 % 2 ^ (32 - 24) ≤ h ∧
        h < 167772414 - 167772414 % 2 ^ (32 - 24) + 2 ^ (32 - 24)) :=
  c4_ip_allocator.1 167772414 24 (by omega)

/-! ## Allocator ownership (claim C6) -/

theorem gather_go_pool_fst :
    ∀ (vlans : List Json) (vnIdx : Nat) (vn_name : String)
      (allocs : List (String × (Nat × Nat))) (d : VlanDefinition)
      (pid : Nat × String),
      d ∈ gather_vlan_definitions_go vnIdx vn_name allocs vlans →
      d.ip_pool = some pid → pid.1 = vnIdx := by
  intro vlans
  induction vlans with
  | nil => intro _ _ _ _ _ h; simp [gather_vlan_definitions_go] at h
  | cons vlan_entry rest ih =>
      intro vnIdx vn_name allocs d pid hmem hpid
      rw [gather_vlan_definitions_go] at hmem
      by_cases hobj : (!vlan_entry.isObj) = true
      · rw [if_pos hobj] at hmem
        exact ih vnIdx vn_name allocs d pid hmem hpid
      · rw [if_neg hobj] at hmem
        by_cases hsel : (selectors_from_vlan_spec
            (if (vlan_entry.get "spec").isObj then vlan_entry.get "spec"
             else Json.obj [])).isEmpty = true
        · rw [if_pos hsel] at hmem
          exact ih vnIdx vn_name allocs d pid hmem hpid
        · rw [if_neg hsel] at hmem
          rcases List.mem_cons.mp hmem with h | h
          · subst h
            simp only at hpid
            revert hpid
            split
            · split
              · intro hp
                cases hp
                rfl
              · intro hp; cases hp
            · intro hp; cases hp
          · exact ih vnIdx vn_name allocs d pid h hpid

theorem gather_pool_fst (vnIdx : Nat) (vn : Json)
    (r : List VlanDefinition × List ((Nat × String) × List String))
    (hok : gather_vlan_definitions vnIdx vn = .ok r) :
    ∀ d ∈ r.1, ∀ pid, d.ip_pool = some pid → pid.1 = vnIdx := by
  intro d hd pid hpid
  unfold gather_vlan_definitions at hok
  split at hok
  · split at hok
    · split at hok
      · cases hok
      · cases hok
        exact gather_go_pool_fst _ _ _ _ d pid hd hpid
    · cases hok
      simp at hd
  · cases hok
    simp at hd

/-- C6 (corrected): an allocator is owned by one VirtualNetwork — definitions
gathered for distinct VirtualNetworks never share iterator state — but within
one VirtualNetwork all VLAN entries naming the same bridge domain share one
allocator, so "no two distinct VlanDefinition records share the same mutable
iterator state" fails (see the counterexample). -/
theorem c6_pool_ownership :
    (∀ (vnIdx : Nat) (vn : Json) r, gather_vlan_definitions vnIdx vn = .ok r →
      ∀ d ∈ r.1, ∀ pid, d.ip_pool = some pid → pid.1 = vnIdx) ∧
    (∀ (i j : Nat) (vni vnj : Json) ri rj,
      gather_vlan_definitions i vni = .ok ri →
      gather_vlan_definitions j vnj = .ok rj →
      i ≠ j →
      ∀ d1 ∈ ri.1, ∀ d2 ∈ rj.1, ∀ p1 p2,
        d1.ip_pool = some p1 → d2.ip_pool = some p2 → p1 ≠ p2) := by
  refine ⟨gather_pool_fst, ?_⟩
  intro i j vni vnj ri rj hi hj hne d1 h1 d2 h2 p1 p2 hp1 hp2 heq
  have e1 : p1.1 = i := gather_pool_fst i vni ri hi d1 h1 p1 hp1
  have e2 : p2.1 = j := gather_pool_fst j vnj rj hj d2 h2 p2 hp2
  rw [heq] at e1
  exact hne (e1 ▸ e2 ▸ rfl)

/-- C6 counterexample: the two (distinct) VLAN definitions of `c6VN` share
one allocator — and consuming through the first definition advances the
second definition's pool: the second attachment receives `10.0.0.2/24`, not
the pool's first address. -/
theorem c6_counterexample :
    (gather_vlan_definitions 0 c6VN).toOption.map
        (fun r => r.1.map VlanDefinition.ip_pool) =
      some [some (0, "bd1"), some (0, "bd1")] ∧
    (gather_vlan_definitions 0 c6VN).toOption.map
        (fun r => r.1.map VlanDefinition.vlan_name) = some ["v1", "v2"] ∧
    (collect_auto_attachments [c6VN] c6Ifaces).toOption.map
        (fun r => r.2.map AutoAttachment.ip_address) =
      some [some "10.0.0.1/24", some "10.0.0.2/24"] := by
  exact ⟨rfl, rfl, rfl⟩

/-- Witness for `c6_pool_ownership` at the concrete fixture. -/
theorem c6_pool_ownership_witness : ((0 : Nat), "bd1").1 = 0 :=
  c6_pool_ownership.1 0 c6VN
    ([⟨"vn1", "v1", some "7", ["s1"], some (0, "bd1")⟩,
      ⟨"vn1", "v2", some "7", ["s2"], some (0, "bd1")⟩],
     [((0, "bd1"), ip_allocator 167772414 24)])
    rfl
    ⟨"vn1", "v1", some "7", ["s1"], some (0, "bd1")⟩
    (List.mem_cons_self _ _) (0, "bd1") rfl

/-! ## Round-tripping the auto-generated spec (claim C3) -/

theorem dictInsert_ne_nil (kvs : List (String × Json)) (k : String) (v : Json) :
    Json.dictInsert kvs k v ≠ [] := by
  cases kvs with
  | nil => simp [Json.dictInsert]
  | cons p rest =>
      rw [Json.dictInsert]
      split <;> simp

theorem lookupKey_dictInsert :
    ∀ (kvs : List (String × Json)) (k k' : String) (v : Json),
      Json.lookupKey (Json.dictInsert kvs k v) k' =
        if k = k' then some v else Json.lookupKey kvs k' := by
  intro kvs k k' v
  induction kvs with
  | nil => simp [Json.dictInsert, Json.lookupKey]
  | cons p rest ih =>
      obtain ⟨k1, v1⟩ := p
      rw [Json.dictInsert]
      by_cases h1 : k1 = k
      · subst h1
        rw [if_pos rfl]
        by_cases h2 : k1 = k'
        · simp [Json.lookupKey, h2]
        · simp [Json.lookupKey, h2]
      · rw [if_neg h1, Json.lookupKey, ih]
        by_cases h2 : k1 = k'
        · have h3 : k ≠ k' := fun he => h1 (h2.trans he.symm)
          simp [Json.lookupKey, h2, h3]
        · simp [Json.lookupKey, h2]

theorem goodNode_objSet {e : Json} (h : GoodNode e) (k : String) (v : Json)
    (h1 : k ≠ "image") (h2 : k ≠ "type") : GoodNode (e.objSet k v) := by
  obtain ⟨kvs, rfl, _, him, hty⟩ := h
  refine ⟨Json.dictInsert kvs k v, rfl, dictInsert_ne_nil _ _ _, ?_, ?_⟩
  · rw [lookupKey_dictInsert, if_neg h1]; exact him
  · rw [lookupKey_dictInsert, if_neg h2]; exact hty

theorem goodNode_default (s i : String) :
    GoodNode (Json.obj [("name", .str s), ("image", .str DEFAULT_IMAGE),
      ("type", .str DEFAULT_NODE_TYPE), ("interface", .str i)]) :=
  ⟨_, rfl, by simp, rfl, rfl⟩

theorem goodNode_get_objSet_name {e : Json} (h : GoodNode e) (v : Json) :
    (e.objSet "name" v).get "name" = v := by
  obtain ⟨kvs, rfl, _, _, _⟩ := h
  show (Json.lookupKey (Json.dictInsert kvs "name" v) "name").getD .null = v
  rw [lookupKey_dictInsert, if_pos rfl]
  rfl

theorem GoodNode.isObjTrue {e : Json} (h : GoodNode e) : e.isObj = true := by
  obtain ⟨kvs, rfl, _, _, _⟩ := h; rfl

theorem GoodNode.truthyTrue {e : Json} (h : GoodNode e) : e.truthy = true := by
  obtain ⟨kvs, rfl, hne, _, _⟩ := h
  cases kvs with
  | nil => exact absurd rfl hne
  | cons a t => rfl

theorem GoodNode.getImage {e : Json} (h : GoodNode e) :
    e.get "image" = .str DEFAULT_IMAGE := by
  obtain ⟨kvs, rfl, _, him, _⟩ := h
  show (Json.lookupKey kvs "image").getD .null = _
  rw [him]
  rfl

theorem GoodNode.getDType {e : Json} (h : GoodNode e) (d : Json) :
    e.getD "type" d = .str DEFAULT_NODE_TYPE := by
  obtain ⟨kvs, rfl, _, _, hty⟩ := h
  show (Json.lookupKey kvs "type").getD d = _
  rw [hty]
  rfl

theorem assocSet_mem {κ α : Type} [DecidableEq κ] :
    ∀ (l : List (κ × α)) (k : κ) (v : α) (p : κ × α),
      p ∈ assocSet l k v → p ∈ l ∨ p.2 = v := by
  intro l k v
  induction l with
  | nil =>
      intro p hp
      rw [assocSet] at hp
      rcases List.mem_singleton.mp hp with rfl
      exact Or.inr rfl
  | cons q rest ih =>
      obtain ⟨k1, v1⟩ := q
      intro p hp
      rw [assocSet] at hp
      split at hp
      · rcases List.mem_cons.mp hp with rfl | hm
        · exact Or.inr rfl
        · exact Or.inl (List.mem_cons_of_mem _ hm)
      · rcases List.mem_cons.mp hp with rfl | hm
        · exact Or.inl (List.mem_cons_self _ _)
        · rcases ih p hm with h | h
          · exact Or.inl (List.mem_cons_of_mem _ h)
          · exact Or.inr h

theorem assocSet_fresh {κ α : Type} [DecidableEq κ] :
    ∀ (l : List (κ × α)) (k : κ) (v : α), assocLookup l k = none →
      assocSet l k v = l ++ [(k, v)] := by
  intro l k v
  induction l with
  | nil => intro _; rfl
  | cons q rest ih =>
      obtain ⟨k1, v1⟩ := q
      intro h
      rw [assocLookup] at h
      rw [assocSet]
      by_cases h1 : k1 = k
      · rw [if_pos h1] at h; cases h
      · rw [if_neg h1] at h
        rw [if_neg h1, ih h, List.cons_append]

theorem assocLookup_append_ne {κ α : Type} [DecidableEq κ] :
    ∀ (l : List (κ × α)) (k0 : κ) (v0 : α) (k : κ), k0 ≠ k →
      assocLookup (l ++ [(k0, v0)]) k = assocLookup l k := by
  intro l k0 v0 k hne
  induction l with
  | nil => simp [assocLookup, hne]
  | cons q rest ih =>
      obtain ⟨k1, v1⟩ := q
      rw [List.cons_append, assocLookup, assocLookup]
      by_cases h1 : k1 = k
      · rw [if_pos h1, if_pos h1]
      · rw [if_neg h1, if_neg h1]
        exact ih

theorem foldl_preserve {α β : Type} (P : α → Prop) (f : α → β → α)
    (hstep : ∀ a b, P a → P (f a b)) :
    ∀ (l : List β) (a : α), P a → P (l.foldl f a) := by
  intro l
  induction l with
  | nil => intro a ha; exact ha
  | cons b rest ih => intro a ha; exact ih (f a b) (hstep a b ha)

theorem process_match_good {d : VlanDefinition} {nm : String} {itf : Json}
    {st : CollectState} (hg : ∀ p ∈ st.sim_nodes, GoodNode p.2) :
    ∀ p ∈ (process_match d nm itf st).sim_nodes, GoodNode p.2 := by
  intro p hp
  by_cases hseen : (d.vlan_name, nm) ∈ st.seen_pairs
  · simp only [process_match, if_pos hseen] at hp
    exact hg p hp
  · rcases hfe : extract_fabric_endpoint itf with ⟨(_ | fn), (_ | fi)⟩
    · simp only [process_match, if_neg hseen, hfe] at hp; exact hg p hp
    · simp only [process_match, if_neg hseen, hfe] at hp; exact hg p hp
    · simp only [process_match, if_neg hseen, hfe] at hp; exact hg p hp
    · simp only [process_match, if_neg hseen, hfe] at hp
      split at hp
      · exact hg p hp
      · cases hl : assocLookup st.sim_nodes (generate_sim_name nm) with
        | some e =>
            rw [hl] at hp
            have hgood : GoodNode e :=
              hg (generate_sim_name nm, e) (assocLookup_some_mem _ _ _ hl)
            rcases assocSet_mem _ _ _ _ hp with hm | hv
            · exact hg p hm
            · rw [hv]
              repeat' first
                | exact hgood
                | exact goodNode_objSet hgood _ _ (by decide) (by decide)
                | exact goodNode_objSet
                    (goodNode_objSet hgood _ _ (by decide) (by decide))
                    _ _ (by decide) (by decide)
                | split
        | none =>
            rw [hl] at hp
            have hgood : GoodNode (Json.obj [("name", .str (generate_sim_name nm)),
                ("image", .str DEFAULT_IMAGE), ("type", .str DEFAULT_NODE_TYPE),
                ("interface", .str DEFAULT_SIM_INTERFACE)]) := goodNode_default _ _
            rcases assocSet_mem _ _ _ _ hp with hm | hv
            · rcases List.mem_append.mp hm with h | h
              · exact hg p h
              · rcases List.mem_singleton.mp h with rfl
                exact hgood
            · rw [hv]
              repeat' first
                | exact hgood
                | exact goodNode_objSet hgood _ _ (by decide) (by decide)
                | exact goodNode_objSet
                    (goodNode_objSet hgood _ _ (by decide) (by decide))
                    _ _ (by decide) (by decide)
                | split

theorem process_definition_good {interfaces : List (String × Json)}
    {st : CollectState} {d : VlanDefinition}
    (hg : ∀ p ∈ st.sim_nodes, GoodNode p.2) :
    ∀ p ∈ (process_definition interfaces st d).sim_nodes, GoodNode p.2 := by
  rw [process_definition]
  exact foldl_preserve (fun s => ∀ p ∈ s.sim_nodes, GoodNode p.2)
    (fun s (nmitf : String × Json) => process_match d nmitf.1 nmitf.2 s)
    (fun s b hs => process_match_good hs) _ st hg

theorem process_vn_good {interfaces : List (String × Json)} {st : CollectState}
    {i : Nat} {vn : Json} {st' : CollectState}
    (h : process_vn interfaces st i vn = .ok st')
    (hg : ∀ p ∈ st.sim_nodes, GoodNode p.2) :
    ∀ p ∈ st'.sim_nodes, GoodNode p.2 := by
  rw [process_vn] at h
  cases hgat : gather_vlan_definitions i vn with
  | error e => rw [hgat] at h; exact Except.noConfusion h
  | ok de =>
      rw [hgat] at h
      obtain ⟨defs, entries⟩ := de
      cases h
      exact foldl_preserve (fun s => ∀ p ∈ s.sim_nodes, GoodNode p.2)
        (process_definition interfaces)
        (fun s d hs => process_definition_good hs) defs
        ⟨st.sim_nodes, st.attachments, st.seen_pairs, st.store ++ entries⟩ hg

theorem collect_vns_good {interfaces : List (String × Json)} :
    ∀ {l : List (Nat × Json)} {st st' : CollectState},
      collect_vns interfaces l st = .ok st' →
      (∀ p ∈ st.sim_nodes, GoodNode p.2) →
      ∀ p ∈ st'.sim_nodes, GoodNode p.2 := by
  intro l
  induction l with
  | nil =>
      intro st st' h hg
      rw [collect_vns] at h
      cases h
      exact hg
  | cons q rest ih =>
      intro st st' h hg
      obtain ⟨i, vn⟩ := q
      rw [collect_vns] at h
      cases hpv : process_vn interfaces st i vn with
      | error e => rw [hpv] at h; exact Except.noConfusion h
      | ok st1 =>
          rw [hpv] at h
          exact ih h (process_vn_good hpv hg)

theorem merge_step_good {acc : List (String × Json) × List AutoAttachment}
    {grp : String × List AutoAttachment}
    (hg : ∀ p ∈ acc.1, GoodNode p.2) :
    ∀ p ∈ (merge_step acc grp).1, GoodNode p.2 := by
  intro p hp
  cases hs : pySorted merge_le grp.2 with
  | nil =>
      simp only [merge_step, hs] at hp
      exact hg p hp
  | cons primary tl =>
      simp only [merge_step, hs] at hp
      cases hl : assocLookup acc.1 primary.sim_name with
      | none =>
          rw [hl] at hp
          exact hg p hp
      | some node_entry =>
          rw [hl] at hp
          have hgood : GoodNode node_entry :=
            hg (primary.sim_name, node_entry) (assocLookup_some_mem _ _ _ hl)
          rcases assocSet_mem _ _ _ _ hp with hm | hv
          · exact hg p hm
          · rw [hv]
            repeat' first
              | exact hgood
              | exact goodNode_objSet hgood _ _ (by decide) (by decide)
              | exact goodNode_objSet
                  (goodNode_objSet hgood _ _ (by decide) (by decide))
                  _ _ (by decide) (by decide)
              | split

theorem merge_attachments_good {sim_nodes : List (String × Json)}
    {atts : List AutoAttachment}
    (hg : ∀ p ∈ sim_nodes, GoodNode p.2) :
    ∀ p ∈ (merge_attachments sim_nodes atts).1, GoodNode p.2 := by
  rw [merge_attachments]
  exact foldl_preserve (fun acc => ∀ p ∈ acc.1, GoodNode p.2) merge_step
    (fun acc g hacc => merge_step_good hacc) (groupByInterface atts)
    (sim_nodes, []) hg

theorem collect_good {vns : List Json} {interfaces : List (String × Json)}
    {sns : List (String × Json)} {atts : List AutoAttachment}
    (h : collect_auto_attachments vns interfaces = .ok (sns, atts)) :
    ∀ p ∈ sns, GoodNode p.2 := by
  rw [collect_auto_attachments] at h
  cases hc : collect_vns interfaces vns.enum ⟨[], [], [], []⟩ with
  | error e => rw [hc] at h; exact Except.noConfusion h
  | ok st =>
      rw [hc] at h
      have hst : ∀ p ∈ st.sim_nodes, GoodNode p.2 :=
        collect_vns_good hc (by intro p hp; cases hp)
      injection h with h3
      have h4 : (merge_attachments st.sim_nodes st.attachments).1 = sns := by
        rw [h3]
      intro p hp
      exact merge_attachments_good hst p (h4 ▸ hp)

theorem goodNode_rename_entry {e0 : Json} (h : e0.truthy = true → GoodNode e0)
    (nn : String) :
    GoodNode ((if !e0.truthy then
        Json.obj [("name", .str nn), ("image", .str DEFAULT_IMAGE),
          ("type", .str DEFAULT_NODE_TYPE),
          ("interface", .str DEFAULT_SIM_INTERFACE)]
      else e0).objSet "name" (.str nn)) ∧
    ((if !e0.truthy then
        Json.obj [("name", .str nn), ("image", .str DEFAULT_IMAGE),
          ("type", .str DEFAULT_NODE_TYPE),
          ("interface", .str DEFAULT_SIM_INTERFACE)]
      else e0).objSet "name" (.str nn)).get "name" = .str nn := by
  have hin : GoodNode (if !e0.truthy then
      Json.obj [("name", .str nn), ("image", .str DEFAULT_IMAGE),
        ("type", .str DEFAULT_NODE_TYPE),
        ("interface", .str DEFAULT_SIM_INTERFACE)]
    else e0) := by
    split
    · exact goodNode_default _ _
    · next hc =>
        refine h ?_
        revert hc
        cases e0.truthy <;> simp
  exact ⟨goodNode_objSet hin _ _ (by decide) (by decide),
    goodNode_get_objSet_name hin _⟩

theorem rename_go_length (sim_nodes : List (String × Json)) :
    ∀ (l : List AutoAttachment) (st : RenameState),
      (rename_servers_go sim_nodes l st).renamed_attachments.length =
        st.renamed_attachments.length + l.length := by
  intro l
  induction l with
  | nil => intro st; rfl
  | cons att rest ih =>
      intro st
      simp only [rename_servers_go]
      rw [ih]
      simp only [List.length_append, List.length_cons, List.length_nil]
      omega

theorem rename_go_inv {sim_nodes : List (String × Json)}
    (hg : ∀ p ∈ sim_nodes, GoodNode p.2) :
    ∀ (l : List AutoAttachment) (st : RenameState),
      st.renamed_nodes.map Prod.fst =
        (List.range st.name_map.length).map (fun i => serverName (i + 1)) →
      (∀ p ∈ st.renamed_nodes, GoodNode p.2 ∧ p.2.get "name" = .str p.1) →
      (∀ q ∈ st.name_map, q.2 ∈ st.renamed_nodes.map Prod.fst) →
      (∀ a ∈ st.renamed_attachments,
        a.sim_name ∈ st.renamed_nodes.map Prod.fst) →
      (rename_servers_go sim_nodes l st).renamed_nodes.map Prod.fst =
          (List.range (rename_servers_go sim_nodes l st).name_map.length).map
            (fun i => serverName (i + 1)) ∧
        (∀ p ∈ (rename_servers_go sim_nodes l st).renamed_nodes,
          GoodNode p.2 ∧ p.2.get "name" = .str p.1) ∧
        (∀ q ∈ (rename_servers_go sim_nodes l st).name_map,
          q.2 ∈ (rename_servers_go sim_nodes l st).renamed_nodes.map Prod.fst) ∧
        (∀ a ∈ (rename_servers_go sim_nodes l st).renamed_attachments,
          a.sim_name ∈
            (rename_servers_go sim_nodes l st).renamed_nodes.map Prod.fst) := by
  intro l
  induction l with
  | nil => intro st h1 h2 h3 h4; exact ⟨h1, h2, h3, h4⟩
  | cons att rest ih =>
      intro st h1 h2 h3 h4
      cases hl : assocLookup st.name_map att.sim_name with
      | some new_name =>
          simp only [rename_servers_go, hl]
          refine ih _ h1 h2 h3 ?_
          intro a ha
          rcases List.mem_append.mp ha with h | h
          · exact h4 a h
          · rcases List.mem_singleton.mp h with rfl
            exact h3 (att.sim_name, new_name) (assocLookup_some_mem _ _ _ hl)
      | none =>
          have hfresh : assocLookup st.renamed_nodes
              (serverName (st.name_map.length + 1)) = none := by
            rw [assocLookup_eq_none, h1]
            intro hmem
            rcases List.mem_map.mp hmem with ⟨i, hi, he⟩
            have hi2 : i + 1 = st.name_map.length + 1 := serverName_injective he
            rw [List.mem_range] at hi
            omega
          simp only [rename_servers_go, hl]
          refine ih _ ?_ ?_ ?_ ?_
          · rw [assocSet_fresh _ _ _ hfresh]
            simp only [List.map_append, List.length_append,
              List.length_singleton, List.range_succ, List.map_cons,
              List.map_nil]
            rw [h1]
          · intro p hp
            rw [assocSet_fresh _ _ _ hfresh] at hp
            rcases List.mem_append.mp hp with h | h
            · exact h2 p h
            · rcases List.mem_singleton.mp h with rfl
              cases hsn : assocLookup sim_nodes att.sim_name with
              | some e =>
                  have hge : GoodNode e :=
                    hg (att.sim_name, e) (assocLookup_some_mem _ _ _ hsn)
                  dsimp only
                  exact goodNode_rename_entry (fun _ => hge) _
              | none =>
                  dsimp only
                  exact goodNode_rename_entry (fun ht => absurd ht (by decide)) _
          · intro q hq
            rw [assocSet_fresh _ _ _ hfresh, List.map_append]
            rcases List.mem_append.mp hq with h | h
            · exact List.mem_append_left _ (h3 q h)
            · rcases List.mem_singleton.mp h with rfl
              exact List.mem_append_right _ (List.mem_singleton.mpr rfl)
          · intro a ha
            rw [assocSet_fresh _ _ _ hfresh, List.map_append]
            rcases List.mem_append.mp ha with h | h
            · exact List.mem_append_left _ (h4 a h)
            · rcases List.mem_singleton.mp h with rfl
              exact List.mem_append_right _ (List.mem_singleton.mpr rfl)

theorem filterMap_serverName_lookup :
    ∀ (l : List (String × Json)) (off : Nat),
      l.map Prod.fst =
        (List.range l.length).map (fun i => serverName (i + off + 1)) →
      (List.range l.length).filterMap
          (fun i => assocLookup l (serverName (i + off + 1))) =
        l.map Prod.snd := by
  intro l
  induction l with
  | nil => intro off _; rfl
  | cons p rest ih =>
      obtain ⟨k, v⟩ := p
      intro off h
      rw [List.length_cons, List.range_succ_eq_map, List.map_cons,
        List.map_cons, List.map_map] at h
      injection h with hk hrest
      rw [Nat.zero_add] at hk
      have hfun : ((fun i => serverName (i + off + 1)) ∘ Nat.succ) =
          (fun i => serverName (i + (off + 1) + 1)) := by
        funext i
        show serverName (Nat.succ i + off + 1) = serverName (i + (off + 1) + 1)
        have he : Nat.succ i + off + 1 = i + (off + 1) + 1 := by omega
        rw [he]
      rw [hfun] at hrest
      have hg0 : assocLookup ((k, v) :: rest) (serverName (0 + off + 1)) =
          some v := by
        rw [Nat.zero_add, assocLookup, if_pos hk]
      rw [List.length_cons, List.range_succ_eq_map]
      simp only [List.filterMap_cons, hg0, List.map_cons]
      rw [List.filterMap_map]
      have hcong : List.filterMap
          ((fun i => assocLookup ((k, v) :: rest) (serverName (i + off + 1))) ∘
            Nat.succ) (List.range rest.length) =
          List.filterMap (fun i => assocLookup rest (serverName (i + (off + 1) + 1)))
            (List.range rest.length) := by
        refine List.filterMap_congr ?_
        intro i hi
        show assocLookup ((k, v) :: rest) (serverName (Nat.succ i + off + 1)) = _
        have hne : ¬k = serverName (Nat.succ i + off + 1) := by
          intro hke
          have h2 := serverName_injective (hk.symm.trans hke)
          omega
        rw [assocLookup, if_neg hne]
        have he : Nat.succ i + off + 1 = i + (off + 1) + 1 := by omega
        rw [he]
      rw [hcong, ih (off + 1) hrest]

theorem parse_sim_nodes_go_keyed :
    ∀ (l : List (String × Json)) (acc : List (String × SimNodeSpec)),
      (∀ p ∈ l, GoodNode p.2 ∧ p.2.get "name" = .str p.1 ∧ pyStrip p.1 ≠ "") →
      (l.map Prod.fst).Nodup →
      (∀ p ∈ l, assocLookup acc p.1 = none) →
      ∃ nodes, parse_sim_nodes_go (l.map Prod.snd) acc = .ok nodes ∧
        nodes.map Prod.fst = acc.map Prod.fst ++ l.map Prod.fst := by
  intro l
  induction l with
  | nil =>
      intro acc _ _ _
      exact ⟨acc, rfl, by simp⟩
  | cons p rest ih =>
      obtain ⟨k, e⟩ := p
      intro acc hval hnd hacc
      obtain ⟨hgood, hname, hstrip⟩ := hval (k, e) (List.mem_cons_self _ _)
      have hobj : ¬((!e.isObj) = true) := by simp [hgood.isObjTrue]
      have hacc0 : assocLookup acc k = none :=
        hacc (k, e) (List.mem_cons_self _ _)
      have hns : ¬(((assocLookup acc k).isSome) = true) := by
        rw [hacc0]
        simp
      have him : ¬(pyStrip DEFAULT_IMAGE = "") := by decide
      have hty : ¬(pyStrip DEFAULT_NODE_TYPE = "") := by decide
      rw [List.map_cons]
      dsimp only
      rw [parse_sim_nodes_go, if_neg hobj]
      simp only [hname, hgood.getImage, hgood.getDType, strWithContent,
        if_neg hstrip, if_neg hns, if_neg him, if_neg hty]
      rcases List.pairwise_cons.mp hnd with ⟨hkfresh, hndrest⟩
      have hacc' : ∀ q ∈ rest, assocLookup
          (acc ++ [(k, ⟨pyStrip k, pyStrip DEFAULT_IMAGE,
            pyStrip DEFAULT_NODE_TYPE, e⟩)]) q.1 = none := by
        intro q hq
        have hkq : k ≠ q.1 :=
          hkfresh q.1 (List.mem_map.mpr ⟨q, hq, rfl⟩)
        rw [assocLookup_append_ne _ _ _ _ hkq]
        exact hacc q (List.mem_cons_of_mem _ hq)
      obtain ⟨nodes, hok, hkeys⟩ :=
        ih (acc ++ [(k, ⟨pyStrip k, pyStrip DEFAULT_IMAGE,
            pyStrip DEFAULT_NODE_TYPE, e⟩)])
          (fun q hq => hval q (List.mem_cons_of_mem _ hq)) hndrest hacc'
      refine ⟨nodes, hok, ?_⟩
      rw [hkeys]
      simp [List.append_assoc]

theorem topology_entry_isObjTrue (a : AutoAttachment) :
    (topology_entry a).isObj = true := rfl

theorem topology_entry_get_node (a : AutoAttachment) :
    (topology_entry a).get "node" = .str a.fabric_node := rfl

theorem topology_entry_get_interface (a : AutoAttachment) :
    (topology_entry a).get "interface" = .str a.fabric_interface := rfl

theorem topology_entry_get_simNode (a : AutoAttachment) :
    (topology_entry a).get "simNode" = .str a.sim_name := rfl

theorem topology_entry_get_simNodeInterface (a : AutoAttachment) :
    (topology_entry a).get "simNodeInterface" = .str DEFAULT_SIM_INTERFACE := rfl

theorem topology_entry_get_vlan (a : AutoAttachment) :
    (topology_entry a).get "vlan" =
      (match a.vlan_id with
        | some v => if v ≠ "" then Json.str v else Json.null
        | none => Json.null) := by
  simp only [topology_entry]
  cases hv : a.vlan_id with
  | none => rfl
  | some v =>
      by_cases he : v = ""
      · subst he
        rfl
      · dsimp only
        rw [if_pos he, if_pos he]
        rfl

theorem topology_entry_get_vlanId (a : AutoAttachment) :
    (topology_entry a).get "vlanId" = .null := by
  simp only [topology_entry]
  cases hv : a.vlan_id with
  | none => rfl
  | some v =>
      by_cases he : v = ""
      · subst he
        rfl
      · dsimp only
        rw [if_pos he]
        rfl

theorem topo_vlan_value (a : AutoAttachment) (h5 : a.vlan_id ≠ some "") :
    (if (Json.pyOr ((topology_entry a).get "vlan")
          ((topology_entry a).get "vlanId")).isStrOrInt = true
      then some (pyStr (Json.pyOr ((topology_entry a).get "vlan")
          ((topology_entry a).get "vlanId")))
      else none) = a.vlan_id := by
  rw [topology_entry_get_vlan, topology_entry_get_vlanId]
  cases hvl : a.vlan_id with
  | none => rfl
  | some v =>
      have hvne : v ≠ "" := by
        intro hh
        subst hh
        exact h5 hvl
      have htr : (Json.str v).truthy = true := by
        simp [Json.truthy, hvne]
      simp only [if_pos hvne, Json.pyOr, if_pos htr]
      rfl

theorem parse_attachments_go_topo :
    ∀ (known : List (String × SimNodeSpec)) (atts : List AutoAttachment),
      (∀ a ∈ atts,
        pyStrip a.fabric_node ≠ "" ∧ pyStrip a.fabric_interface ≠ "" ∧
        pyStrip a.sim_name ≠ "" ∧ (assocLookup known a.sim_name).isSome = true ∧
        a.vlan_id ≠ some "") →
      parse_attachments_go known (atts.map topology_entry) =
        .ok (atts.map (fun a =>
          ⟨pyStrip a.fabric_node, pyStrip a.fabric_interface,
            pyStrip a.sim_name, pyStrip DEFAULT_SIM_INTERFACE, a.vlan_id⟩)) := by
  intro known atts
  induction atts with
  | nil => intro _; rfl
  | cons a rest ih =>
      intro hv
      obtain ⟨h1, h2, h3, h4, h5⟩ := hv a (List.mem_cons_self _ _)
      have hrest := ih (fun q hq => hv q (List.mem_cons_of_mem _ hq))
      have hsi : Json.pyOr (.str DEFAULT_SIM_INTERFACE)
          (.str a.fabric_interface) = .str DEFAULT_SIM_INTERFACE := by
        rw [Json.pyOr, if_pos (by decide)]
      rw [List.map_cons, List.map_cons, parse_attachments_go,
        if_neg (show ¬((!(topology_entry a).isObj) = true) by
          simp [topology_entry_isObjTrue])]
      simp only [topology_entry_get_node, topology_entry_get_interface,
        topology_entry_get_simNode, topology_entry_get_simNodeInterface, hsi,
        strWithContent, if_neg h1, if_neg h2, if_neg h3,
        if_neg (show ¬(pyStrip DEFAULT_SIM_INTERFACE = "") by decide)]
      rw [if_pos h4]
      simp only [hrest]
      rw [topo_vlan_value a h5]

theorem rename_servers_fst (sns : List (String × Json))
    (atts : List AutoAttachment) :
    (rename_servers sns atts).1 =
      (rename_servers_go sns (pySorted rename_le atts) ⟨[], [], []⟩).renamed_nodes :=
  rfl

theorem rename_servers_snd (sns : List (String × Json))
    (atts : List AutoAttachment) :
    (rename_servers sns atts).2 =
      (rename_servers_go sns (pySorted rename_le atts)
        ⟨[], [], []⟩).renamed_attachments :=
  rfl

theorem spec_base_sim_topo (X Y : List Json) :
    spec_base (.obj [("simNodes", .arr X), ("topology", .arr Y)]) =
      .ok (.obj [("simNodes", .arr X), ("topology", .arr Y)]) := rfl

theorem parse_from_base_sim_topo (X Y : List Json) :
    parse_from_base (.obj [("simNodes", .arr X), ("topology", .arr Y)]) =
      (match parse_sim_nodes X with
        | .error e => .error e
        | .ok nodes =>
            match parse_attachments Y nodes with
            | .error e => .error e
            | .ok attachments => .ok ⟨nodes, attachments⟩) := rfl

/-- C3 (corrected): validating the raw spec of an auto-generated plan succeeds
and reproduces the plan's `(sim node, fabric interface, VLAN)` triples exactly,
*provided* the plan's fabric data is strip-clean: every attachment's fabric
node strips to a non-empty string, its fabric interface is unchanged by
stripping and non-empty, and its VLAN id is not the empty string.  Without
that proviso the validator strips whitespace the renderer preserved (see the
counterexample), so the claim as stated is false. -/
theorem c3_roundtrip (topo_ns : String) (vns : List Json)
    (interfaces : List (String × Json)) (plan : AutoPlan)
    (hb : build_auto_plan topo_ns vns interfaces = .ok plan)
    (hclean : ∀ a ∈ plan.attachments,
      pyStrip a.fabric_node ≠ "" ∧
      pyStrip a.fabric_interface = a.fabric_interface ∧
      a.fabric_interface ≠ "" ∧ a.vlan_id ≠ some "") :
    ∃ s, parse_simulation_spec plan.raw_spec = .ok s ∧
      s.attachments.map (fun t => (t.sim_node, t.fabric_interface, t.vlan)) =
        plan.attachments.map
          (fun a => (a.sim_name, a.fabric_interface, a.vlan_id)) := by
  by_cases hvne : vns.isEmpty = true
  · rw [build_auto_plan, if_pos hvne] at hb
    exact Except.noConfusion hb
  by_cases hine : interfaces.isEmpty = true
  · rw [build_auto_plan, if_neg hvne, if_pos hine] at hb
    exact Except.noConfusion hb
  rw [build_auto_plan, if_neg hvne, if_neg hine] at hb
  cases hcol : collect_auto_attachments vns interfaces with
  | error e => rw [hcol] at hb; exact Except.noConfusion hb
  | ok pr =>
      obtain ⟨sns, atts⟩ := pr
      rw [hcol] at hb
      dsimp only at hb
      by_cases hae : atts.isEmpty = true
      · rw [if_pos hae] at hb
        exact Except.noConfusion hb
      rw [if_neg hae] at hb
      injection hb with hplan
      subst hplan
      dsimp only at hclean ⊢
      rw [rename_servers_snd] at hclean
      rw [rename_servers_fst, rename_servers_snd]
      have hgood : ∀ p ∈ sns, GoodNode p.2 := collect_good hcol
      obtain ⟨hkeys, hentries, hnmap, hatts⟩ :=
        rename_go_inv hgood (pySorted rename_le atts) ⟨[], [], []⟩ rfl
          (by intro p hp; cases hp) (by intro q hq; cases hq)
          (by intro a ha; cases ha)
      have hatts_ne : atts ≠ [] := by
        intro h
        rw [h] at hae
        exact hae rfl
      have hlen_ra : (rename_servers_go sns (pySorted rename_le atts)
          ⟨[], [], []⟩).renamed_attachments.length = atts.length := by
        rw [rename_go_length]
        simpa using (pySorted_perm rename_le atts).length_eq
      have hra_ne : (rename_servers_go sns (pySorted rename_le atts)
          ⟨[], [], []⟩).renamed_attachments ≠ [] := by
        intro h
        rw [h] at hlen_ra
        exact hatts_ne (List.length_eq_zero.mp hlen_ra.symm)
      have hrn_ne : (rename_servers_go sns (pySorted rename_le atts)
          ⟨[], [], []⟩).renamed_nodes ≠ [] := by
        obtain ⟨a0, ha0⟩ := List.exists_mem_of_ne_nil _ hra_ne
        have hm := hatts a0 ha0
        intro h
        rw [h] at hm
        cases hm
      have hserver : ∀ a ∈ (rename_servers_go sns (pySorted rename_le atts)
          ⟨[], [], []⟩).renamed_attachments,
          ∃ i : Nat, a.sim_name = serverName (i + 1) := by
        intro a ha
        have hm := hatts a ha
        rw [hkeys] at hm
        obtain ⟨i, _, he⟩ := List.mem_map.mp hm
        exact ⟨i, he.symm⟩
      have hlen : (rename_servers_go sns (pySorted rename_le atts)
          ⟨[], [], []⟩).renamed_nodes.length =
          (rename_servers_go sns (pySorted rename_le atts)
            ⟨[], [], []⟩).name_map.length := by
        have h := congrArg List.length hkeys
        simpa using h
      have hkeys' : (rename_servers_go sns (pySorted rename_le atts)
          ⟨[], [], []⟩).renamed_nodes.map Prod.fst =
          (List.range (rename_servers_go sns (pySorted rename_le atts)
            ⟨[], [], []⟩).renamed_nodes.length).map
            (fun i => serverName (i + 0 + 1)) := by
        rw [hlen]
        exact hkeys
      have hnsl : (List.range (rename_servers_go sns (pySorted rename_le atts)
          ⟨[], [], []⟩).renamed_nodes.length).filterMap
          (fun i => assocLookup (rename_servers_go sns (pySorted rename_le atts)
            ⟨[], [], []⟩).renamed_nodes (serverName (i + 1))) =
          (rename_servers_go sns (pySorted rename_le atts)
            ⟨[], [], []⟩).renamed_nodes.map Prod.snd :=
        filterMap_serverName_lookup _ 0 hkeys'
      rw [hnsl]
      obtain ⟨nodes, hok, hnkeys⟩ :=
        parse_sim_nodes_go_keyed
          (rename_servers_go sns (pySorted rename_le atts) ⟨[], [], []⟩).renamed_nodes
          []
          (by
            intro p hp
            obtain ⟨hg1, hg2⟩ := hentries p hp
            refine ⟨hg1, hg2, ?_⟩
            have hpf : p.1 ∈ (rename_servers_go sns (pySorted rename_le atts)
                ⟨[], [], []⟩).renamed_nodes.map Prod.fst :=
              List.mem_map.mpr ⟨p, hp, rfl⟩
            rw [hkeys] at hpf
            obtain ⟨i, _, he⟩ := List.mem_map.mp hpf
            rw [← he, pyStrip_serverName]
            exact serverName_ne_empty _)
          (by
            rw [hkeys]
            refine List.Nodup.map ?_ (List.nodup_range _)
            intro a b hab
            have := serverName_injective hab
            omega)
          (fun p hp => rfl)
      have hnkeys' : nodes.map Prod.fst =
          (rename_servers_go sns (pySorted rename_le atts)
            ⟨[], [], []⟩).renamed_nodes.map Prod.fst := by
        simpa using hnkeys
      have hnodes_ne : nodes ≠ [] := by
        intro h
        have h2 : (rename_servers_go sns (pySorted rename_le atts)
            ⟨[], [], []⟩).renamed_nodes.map Prod.fst = [] := by
          rw [← hnkeys', h]
          rfl
        exact hrn_ne (List.map_eq_nil_iff.mp h2)
      have hie2 : ¬(nodes.isEmpty = true) := by
        cases nodes with
        | nil => exact absurd rfl hnodes_ne
        | cons n t => simp [List.isEmpty]
      have hps : parse_sim_nodes ((rename_servers_go sns
          (pySorted rename_le atts) ⟨[], [], []⟩).renamed_nodes.map Prod.snd) =
          .ok nodes := by
        rw [parse_sim_nodes]
        simp only [hok, if_neg hie2]
      have hcond : ∀ a ∈ (rename_servers_go sns (pySorted rename_le atts)
          ⟨[], [], []⟩).renamed_attachments,
          pyStrip a.fabric_node ≠ "" ∧ pyStrip a.fabric_interface ≠ "" ∧
          pyStrip a.sim_name ≠ "" ∧
          (assocLookup nodes a.sim_name).isSome = true ∧
          a.vlan_id ≠ some "" := by
        intro a ha
        obtain ⟨c1, c2, c3, c4⟩ := hclean a ha
        obtain ⟨i, hi⟩ := hserver a ha
        refine ⟨c1, ?_, ?_, ?_, c4⟩
        · rw [c2]
          exact c3
        · rw [hi, pyStrip_serverName]
          exact serverName_ne_empty _
        · rw [Option.isSome_iff_ne_none]
          intro hn
          rw [assocLookup_eq_none, hnkeys'] at hn
          exact hn (hatts a ha)
      have hpago := parse_attachments_go_topo nodes
        (rename_servers_go sns (pySorted rename_le atts)
          ⟨[], [], []⟩).renamed_attachments hcond
      have hmap_ne : ¬(((rename_servers_go sns (pySorted rename_le atts)
          ⟨[], [], []⟩).renamed_attachments.map (fun a =>
            (⟨pyStrip a.fabric_node, pyStrip a.fabric_interface,
              pyStrip a.sim_name, pyStrip DEFAULT_SIM_INTERFACE,
              a.vlan_id⟩ : AttachmentSpec))).isEmpty = true) := by
        cases hra : (rename_servers_go sns (pySorted rename_le atts)
            ⟨[], [], []⟩).renamed_attachments with
        | nil => exact absurd hra hra_ne
        | cons x t => simp [List.isEmpty]
      have hpa : parse_attachments ((rename_servers_go sns
          (pySorted rename_le atts) ⟨[], [], []⟩).renamed_attachments.map
            topology_entry) nodes =
          .ok ((rename_servers_go sns (pySorted rename_le atts)
            ⟨[], [], []⟩).renamed_attachments.map (fun a =>
              ⟨pyStrip a.fabric_node, pyStrip a.fabric_interface,
                pyStrip a.sim_name, pyStrip DEFAULT_SIM_INTERFACE,
                a.vlan_id⟩)) := by
        rw [parse_attachments, if_neg hie2]
        simp only [hpago, if_neg hmap_ne]
      refine ⟨⟨nodes, (rename_servers_go sns (pySorted rename_le atts)
          ⟨[], [], []⟩).renamed_attachments.map (fun a =>
            ⟨pyStrip a.fabric_node, pyStrip a.fabric_interface,
              pyStrip a.sim_name, pyStrip DEFAULT_SIM_INTERFACE,
              a.vlan_id⟩)⟩, ?_, ?_⟩
      · rw [parse_simulation_spec]
        simp only [spec_base_sim_topo, parse_from_base_sim_topo, hps, hpa]
      · rw [List.map_map]
        refine List.map_congr_left ?_
        intro a ha
        obtain ⟨c1, c2, c3, c4⟩ := hclean a ha
        obtain ⟨i, hi⟩ := hserver a ha
        show (pyStrip a.sim_name, pyStrip a.fabric_interface, a.vlan_id) =
          (a.sim_name, a.fabric_interface, a.vlan_id)
        rw [c2, hi, pyStrip_serverName]

/-- C3 counterexample: CRD data may carry whitespace that the renderer
preserves but the validator strips.  With an interface whose fabric member
interface is `" e1"`, the auto-generated plan's raw spec validates
successfully, but the parsed triple carries `"e1"` where the plan's attachment
used `" e1"` — the `(sim node, fabric interface, VLAN)` triples are not
reproduced exactly. -/
theorem c3_counterexample :
    (build_auto_plan "eda" [c3xVn] c3xIfaces).map
        (fun p => ((parse_simulation_spec p.raw_spec).map
            (fun s => s.attachments.map
              (fun t => (t.sim_node, t.fabric_interface, t.vlan))),
          p.attachments.map
            (fun a => (a.sim_name, a.fabric_interface, a.vlan_id)))) =
      .ok (.ok [("server1", "e1", some "10")],
        [("server1", " e1", some "10")]) := rfl

/-- Witness for `c3_roundtrip` on the strip-clean variant of the same
fixture. -/
theorem c3_roundtrip_witness :
    build_auto_plan "eda" [c3xVn] c3wIfaces = .ok c3wPlan ∧
    (∃ s, parse_simulation_spec c3wPlan.raw_spec = .ok s ∧
      s.attachments.map (fun t => (t.sim_node, t.fabric_interface, t.vlan)) =
        c3wPlan.attachments.map
          (fun a => (a.sim_name, a.fabric_interface, a.vlan_id))) :=
  ⟨rfl, c3_roundtrip "eda" [c3xVn] c3wIfaces c3wPlan rfl (by decide)⟩

/-- Witness for `c10_spec_wrapped_shape` at a concrete document. -/
theorem c10_spec_wrapped_witness :
    parse_simulation_spec (.obj [("spec", c10Valid)]) = parse_from_base c10Valid ∧
    parse_simulation_spec (.obj [("spec", c10Valid)]) = parse_simulation_spec c10Valid := by
  have h := c10_spec_wrapped_shape [("spec", c10Valid)] c10Valid rfl rfl rfl
  exact ⟨h.1, h.2 rfl rfl⟩

end CxAttach
